import Mathlib

/-!
Shallow embedding of the CrossPlay core (library.rs, tag_interface.rs, youtube.rs)
and proofs about its specification claims.

The ID3 tag container is modelled by the operations the program uses: the
title/artist/album text frames, the list of comment frames, and the list of
picture frames. Machine integers (u64) are modelled as Nat with explicit
2 ^ 64 bounds where they matter. Fallible operations return Except or Option.
-/

namespace CrossPlay

/-- ID3 comment frame (id3::frame::Comment): language, description, text. -/
structure Comment where
  lang : String
  description : String
  text : String
deriving DecidableEq

/-- ID3 picture frame (id3::frame::Picture). The picture type is the APIC type
code; the only one the program inspects is CoverFront (code 3). -/
structure Picture where
  mime_type : String
  picture_type : Nat
  description : String
  data : List Nat
deriving DecidableEq

/-- id3::frame::PictureType::CoverFront (APIC type code 3). -/
def PictureType.coverFront : Nat := 3

/-- Shallow model of id3::Tag: exactly the frames the program reads or writes. -/
structure Tag where
  title : Option String := none
  artist : Option String := none
  album : Option String := none
  comments : List Comment := []
  pictures : List Picture := []
deriving DecidableEq

/-- Tag::new(): an empty tag. -/
def Tag.new : Tag := {}

/-- TagLike::set_title. -/
def Tag.set_title (t : Tag) (s : String) : Tag := { t with title := some s }

/-- TagLike::set_artist. -/
def Tag.set_artist (t : Tag) (s : String) : Tag := { t with artist := some s }

/-- TagLike::set_album. -/
def Tag.set_album (t : Tag) (s : String) : Tag := { t with album := some s }

/-- TagLike::add_frame for a comment frame. Per the ID3v2 specification that
the id3 crate implements, a new COMM frame replaces any existing COMM frame
with the same language and description; the new frame is appended. -/
def Tag.addCommentFrame (t : Tag) (c : Comment) : Tag :=
  { t with comments :=
      (t.comments.filter
        (fun c0 => !(c0.lang = c.lang && c0.description = c.description))) ++ [c] }

/-- TagLike::add_frame for a picture frame. The program only ever adds a
picture to a freshly created tag, so the frame is simply appended. -/
def Tag.addPictureFrame (t : Tag) (p : Picture) : Tag :=
  { t with pictures := t.pictures ++ [p] }

/-- TagLike::remove_comment(description, text): removes every comment matching
both optional filters (a missing filter matches everything). -/
def Tag.remove_comment (t : Tag) (description text : Option String) : Tag :=
  { t with comments := (t.comments.filter (fun c =>
      !(description.all (fun d => d = c.description)
        && text.all (fun x => x = c.text)))) }

/-- Decimal digit character for a digit value below ten. -/
def natDigitChar (d : Nat) : Char :=
  if d = 0 then '0'
  else if d = 1 then '1'
  else if d = 2 then '2'
  else if d = 3 then '3'
  else if d = 4 then '4'
  else if d = 5 then '5'
  else if d = 6 then '6'
  else if d = 7 then '7'
  else if d = 8 then '8'
  else if d = 9 then '9'
  else '?'

/-- Little-endian decimal digits of a number, with explicit fuel so that the
recursion is structural (the fuel is always taken at least as large as the
number itself). -/
def natDecDigitsAux : Nat → Nat → List Nat
  | 0, _ => []
  | _ + 1, 0 => []
  | fuel + 1, n + 1 => ((n + 1) % 10) :: natDecDigitsAux fuel ((n + 1) / 10)

/-- u64's Display implementation (`to_string`): decimal representation. -/
def natToString (n : Nat) : String :=
  if n = 0 then ("0") else ⟨((natDecDigitsAux n n).map natDigitChar).reverse⟩

/-- Numeric value of a decimal digit character. -/
def digitVal (c : Char) : Nat := c.toNat - 48

/-- str::parse::<u64>(): an optional leading plus sign, then one or more ASCII
digits, with the value required to fit in 64 bits; anything else fails. -/
def parseU64Chars (cs : List Char) : Option Nat :=
  let cs := match cs with
    | c :: rest => if c = '+' then rest else c :: rest
    | [] => []
  if cs = [] then none
  else if cs.all Char.isDigit then
    let n := Nat.ofDigits 10 ((cs.map digitVal).reverse)
    if n < 2 ^ 64 then some n else none
  else none

/-- str::parse::<u64>() on a string. -/
def parseU64 (s : String) : Option Nat := parseU64Chars s.data

/-- The tag-read error taxonomy of tag_interface.rs: read_custom either fails
because a required comment is missing, or because the comment's text cannot be
parsed (the source's from_comment_text panics there; the model aborts). -/
inductive TagReadError
  | missingRequired (name : String)
  | abort
deriving DecidableEq

/-- The CustomTag trait of tag_interface.rs as a closed record of field
descriptors: comment name, decode function (Option models the panic of a
failing parse), encode function (none means the comment is deleted or left
uncreated), and the default for a missing comment (none means required). -/
structure CustomTagDef (T : Type) where
  NAME : String
  from_comment_text : String → Option T
  to_comment_text : T → Option String
  value_if_comment_missing : Option T

/-- CustomTagExtensions::write_custom for id3::Tag: delete any existing
comment under the tag's name, then insert the encoded value, if any. -/
def write_custom {T : Type} (C : CustomTagDef T) (t : Tag) (value : T) : Tag :=
  let t := t.remove_comment (some C.NAME) none
  match C.to_comment_text value with
  | some text => t.addCommentFrame { lang := "eng", description := C.NAME, text := text }
  | none => t

/-- CustomTagExtensions::read_custom for id3::Tag: find the comment by
description and decode it, or fall back to the default / a missing-required
error. -/
def read_custom {T : Type} (C : CustomTagDef T) (t : Tag) : Except TagReadError T :=
  match t.comments.find? (fun c => c.description = C.NAME) with
  | some comment =>
    match C.from_comment_text comment.text with
    | some v => Except.ok v
    | none => Except.error TagReadError.abort
  | none =>
    match C.value_if_comment_missing with
    | some v => Except.ok v
    | none => Except.error (TagReadError.missingRequired C.NAME)

/-- The FlagTag blanket implementation: a boolean encoded purely by presence
(true writes an empty comment, false deletes it; a present comment reads as
true, a missing one as false). -/
def FlagTagDef (name : String) : CustomTagDef Bool :=
  { NAME := name
    from_comment_text := fun _ => some true
    to_comment_text := fun value => if value then some ("") else none
    value_if_comment_missing := some false }

/-- YouTubeIdTag: a required string tag. -/
def YouTubeIdTag : CustomTagDef String :=
  { NAME := "[CrossPlay] YouTube ID"
    from_comment_text := fun s => some s
    to_comment_text := fun value => some value
    value_if_comment_missing := none }

/-- CroppedTag: flag tag. -/
def CroppedTag : CustomTagDef Bool := FlagTagDef ("[CrossPlay] Cropped")

/-- MetadataEditedTag: flag tag. -/
def MetadataEditedTag : CustomTagDef Bool := FlagTagDef ("[CrossPlay] Metadata edited")

/-- DownloadTimeTag: a u64 tag, written in decimal, defaulting to 0 when
missing; a present but unparsable text panics in the source (modelled by
Option). -/
def DownloadTimeTag : CustomTagDef Nat :=
  { NAME := "[CrossPlay] Download time"
    from_comment_text := parseU64
    to_comment_text := fun value => some (natToString value)
    value_if_comment_missing := some 0 }

/-- library.rs SongMetadata. download_unix_time is a u64 (Nat with a 2 ^ 64
bound where it matters). -/
structure SongMetadata where
  title : String
  artist : String
  album : String
  youtube_id : String
  album_art : Option Picture
  is_cropped : Bool
  is_metadata_edited : Bool
  download_unix_time : Nat
deriving DecidableEq

/-- TAG_KEY_YOUTUBE_ID. -/
def TAG_KEY_YOUTUBE_ID : String := "[CrossPlay] YouTube ID"

/-- TAG_KEY_IS_CROPPED. -/
def TAG_KEY_IS_CROPPED : String := "[CrossPlay] Cropped"

/-- TAG_KEY_IS_METADATA_EDITED. -/
def TAG_KEY_IS_METADATA_EDITED : String := "[CrossPlay] Metadata edited"

/-- TAG_KEY_DOWNLOAD_TIME. -/
def TAG_KEY_DOWNLOAD_TIME : String := "[CrossPlay] Download time"

/-- SongMetadata::get_youtube_id: the first comment with the YouTube ID key. -/
def SongMetadata.get_youtube_id (tag : Tag) : Option Comment :=
  tag.comments.find? (fun c => c.description = TAG_KEY_YOUTUBE_ID)

/-- SongMetadata::set_youtube_id: remove the existing ID comment (matching its
description and text), then add the new one. -/
def SongMetadata.set_youtube_id (md : SongMetadata) (tag : Tag) : Tag :=
  let tag := match SongMetadata.get_youtube_id tag with
    | some comment => tag.remove_comment (some comment.description) (some comment.text)
    | none => tag
  tag.addCommentFrame
    { lang := "eng", description := TAG_KEY_YOUTUBE_ID, text := md.youtube_id }

/-- SongMetadata::get_cropped: true iff the cropped-flag comment is present. -/
def SongMetadata.get_cropped (tag : Tag) : Bool :=
  (tag.comments.find? (fun c => c.description = TAG_KEY_IS_CROPPED)).isSome

/-- SongMetadata::mark_cropped: add the cropped-flag comment (empty text). -/
def SongMetadata.mark_cropped (tag : Tag) : Tag :=
  tag.addCommentFrame { lang := "eng", description := TAG_KEY_IS_CROPPED, text := "" }

/-- SongMetadata::get_metadata_edited. -/
def SongMetadata.get_metadata_edited (tag : Tag) : Bool :=
  (tag.comments.find? (fun c => c.description = TAG_KEY_IS_METADATA_EDITED)).isSome

/-- SongMetadata::mark_metadata_edited. -/
def SongMetadata.mark_metadata_edited (tag : Tag) : Tag :=
  tag.addCommentFrame { lang := "eng", description := TAG_KEY_IS_METADATA_EDITED, text := "" }

/-- SongMetadata::get_download_unix_time: the first comment with the download
time key. -/
def SongMetadata.get_download_unix_time (tag : Tag) : Option Comment :=
  tag.comments.find? (fun c => c.description = TAG_KEY_DOWNLOAD_TIME)

/-- SongMetadata::set_download_unix_time: remove the existing comment, then
add the decimal rendering of the timestamp (written even when it is 0). -/
def SongMetadata.set_download_unix_time (md : SongMetadata) (tag : Tag) : Tag :=
  let tag := match SongMetadata.get_download_unix_time tag with
    | some comment => tag.remove_comment (some comment.description) (some comment.text)
    | none => tag
  tag.addCommentFrame
    { lang := "eng", description := TAG_KEY_DOWNLOAD_TIME,
      text := natToString md.download_unix_time }

/-- SongMetadata::get_album_art: the first picture frame with type CoverFront. -/
def SongMetadata.get_album_art (tag : Tag) : Option Picture :=
  tag.pictures.find? (fun p => p.picture_type = PictureType.coverFront)

/-- SongMetadata::write_into_tag: set the standard frames, add the album art
if any, write the YouTube ID and download time, and mark the flags only when
they are true. -/
def SongMetadata.write_into_tag (md : SongMetadata) (tag : Tag) : Tag :=
  let tag := (tag.set_title md.title).set_artist md.artist |>.set_album md.album
  let tag := match md.album_art with
    | some album_art => tag.addPictureFrame album_art
    | none => tag
  let tag := md.set_youtube_id tag
  let tag := md.set_download_unix_time tag
  let tag := if md.is_cropped then SongMetadata.mark_cropped tag else tag
  if md.is_metadata_edited then SongMetadata.mark_metadata_edited tag else tag

/-- I/O and process errors surfaced by the library operations. -/
inductive RustError
  | io
  | exitStatus (code : Nat)
deriving DecidableEq

/-- A file on disk: its raw content stream (opaque bytes / audio, which the
program never interprets itself) and its embedded ID3 tag. -/
structure File where
  content : List Nat
  tag : Tag
deriving DecidableEq

/-- The file system: a map from paths to files. -/
abbrev FS := String → Option File

/-- Writing (creating or replacing) a file. -/
def FS.write (fs : FS) (p : String) (f : File) : FS :=
  fun q => if q = p then some f else fs q

/-- Removing a file. -/
def FS.remove (fs : FS) (p : String) : FS :=
  fun q => if q = p then none else fs q

/-- SongMetadata::write_into_file: build a brand-new tag, serialize the
metadata into it, and write it into the file at the path, replacing whatever
tag the file had (Tag::write_to_path). Fails if the file cannot be opened. -/
def SongMetadata.write_into_file (md : SongMetadata) (fs : FS) (path : String) :
    Except RustError FS :=
  match fs path with
  | some f => Except.ok (fs.write path { f with tag := md.write_into_tag Tag.new })
  | none => Except.error RustError.io

/-- library.rs Song: the working path and the in-memory metadata. -/
structure Song where
  path : String
  metadata : SongMetadata
deriving DecidableEq

/-- Song::original_copy_path: the working path with the ".original" suffix. -/
def Song.original_copy_path (song : Song) : String :=
  song.path ++ ".original"

/-- Song::create_original_copy: a no-op if the backup already exists,
otherwise a byte-copy of the working file to the backup path (an I/O error if
the working file is missing). -/
def Song.create_original_copy (song : Song) (fs : FS) : Except RustError FS :=
  if (fs song.original_copy_path).isSome then Except.ok fs
  else match fs song.path with
    | some f => Except.ok (fs.write song.original_copy_path f)
    | none => Except.error RustError.io

/-- Modelled from the spec: the external trim tool (ffmpeg), which is not part
of this repository. Song::crop invokes it as
ffmpeg -ss start -to end -i input -y -acodec copy output; per the spec the
tool produces a losslessly-copied, time-bounded stream, modelled as the
[start, end) slice of the input's content, written over the output path with
no embedded tag. Its exit status is an oracle parameter; on non-zero exit the
tool is taken to have written nothing (the spec: tool failure never corrupts
state). -/
def ffmpegInvoke (fs : FS) (startT endT : Nat) (input output : String)
    (exitCode : Nat) : FS :=
  if exitCode = 0 then
    match fs input with
    | some f =>
      fs.write output { content := (f.content.take endT).drop startT, tag := Tag.new }
    | none => fs
  else fs

/-- Song::crop: ensure the original copy exists, run ffmpeg with the original
copy as input and the working path as output, fail on non-zero exit, then set
is_cropped and re-serialize the metadata into the working file. Returns the
resulting file system, the resulting in-memory song, and the outcome. -/
def Song.crop (song : Song) (fs : FS) (startT endT : Nat) (ffmpegExitCode : Nat) :
    FS × Song × Except RustError Unit :=
  match song.create_original_copy fs with
  | Except.error e => (fs, song, Except.error e)
  | Except.ok fs1 =>
    let fs2 := ffmpegInvoke fs1 startT endT song.original_copy_path song.path ffmpegExitCode
    if ffmpegExitCode ≠ 0 then (fs2, song, Except.error (RustError.exitStatus ffmpegExitCode))
    else
      let song' := { song with metadata := { song.metadata with is_cropped := true } }
      match song'.metadata.write_into_file fs2 song.path with
      | Except.error e => (fs2, song', Except.error e)
      | Except.ok fs3 => (fs3, song', Except.ok ())

/-- Song::user_edit_metadata: ensure the original copy exists, set
is_metadata_edited, and re-serialize the metadata into the working file. -/
def Song.user_edit_metadata (song : Song) (fs : FS) :
    FS × Song × Except RustError Unit :=
  match song.create_original_copy fs with
  | Except.error e => (fs, song, Except.error e)
  | Except.ok fs1 =>
    let song' := { song with metadata := { song.metadata with is_metadata_edited := true } }
    match song'.metadata.write_into_file fs1 song.path with
    | Except.error e => (fs1, song', Except.error e)
    | Except.ok fs2 => (fs2, song', Except.ok ())

/-- Rust's char::to_ascii_lowercase (Lean's Char.toLower lowercases exactly
the ASCII uppercase range). -/
def asciiLowercase (s : String) : String := ⟨s.data.map Char.toLower⟩

/-- Splitting a character list at every occurrence of a separator character
(the pieces do not contain the separator; n separators yield n + 1 pieces). -/
def splitOnChar (sep : Char) : List Char → List (List Char)
  | [] => [[]]
  | c :: rest =>
    if c = sep then [] :: splitOnChar sep rest
    else match splitOnChar sep rest with
      | g :: gs => (c :: g) :: gs
      | [] => [[c]]

/-- std::path::Path::extension on the file name of a path: the portion of the
final component after its last dot; none when there is no dot, or when the
only dot is a leading one (a dotfile). -/
def pathExtension (p : String) : Option String :=
  let name := (splitOnChar '/' p.data).getLastD []
  let parts := splitOnChar '.' name
  if parts.length ≤ 1 then none
  else if name.head? = some '.' && parts.length = 2 then none
  else some ⟨parts.getLastD []⟩

/-- One directory entry as load_songs sees it: the entry's path, and the
outcome of id3::Tag::read_from_path on it (none models a read failure, e.g.
no tag present). -/
structure DirEntry where
  path : String
  tagRead : Option Tag
deriving DecidableEq

/-- library.rs Library: the root path and the snapshot of loaded songs. -/
structure Library where
  path : String
  loaded_songs : List Song
deriving DecidableEq

/-- The body of load_songs' for-loop over directory entries, accumulating
into the library's loaded_songs (which the caller has already cleared):
consider only entries whose extension lowercases to "mp3"; skip entries whose
tag cannot be read or that have no YouTube ID comment; a failing directory
entry aborts the loop with the error. -/
def loadSongsLoop (lib : Library) :
    List (Except RustError DirEntry) → Library × Except RustError Unit
  | [] => (lib, Except.ok ())
  | Except.error e :: _ => (lib, Except.error e)
  | Except.ok entry :: rest =>
    if (pathExtension entry.path).map asciiLowercase = some ("mp3") then
      match entry.tagRead with
      | some tag =>
        match SongMetadata.get_youtube_id tag with
        | some video_id =>
          let download_unix_time : Nat :=
            (((SongMetadata.get_download_unix_time tag).map
              (fun c => parseU64 c.text)).join).getD 0
          let metadata : SongMetadata :=
            { title := tag.title.getD ("Unknown Title")
              artist := tag.artist.getD ("Unknown Artist")
              album := tag.album.getD ("Unknown Album")
              youtube_id := video_id.text
              album_art := SongMetadata.get_album_art tag
              is_cropped := SongMetadata.get_cropped tag
              is_metadata_edited := SongMetadata.get_metadata_edited tag
              download_unix_time := download_unix_time }
          loadSongsLoop
            { lib with loaded_songs := lib.loaded_songs ++ [{ path := entry.path, metadata := metadata }] }
            rest
        | none => loadSongsLoop lib rest
      | none => loadSongsLoop lib rest
    else loadSongsLoop lib rest

/-- Library::load_songs: clear the loaded list, then enumerate the immediate
entries of the root directory (the enumeration outcome — read_dir and the
per-entry results — is the input) and run the loading loop. Note the clearing
happens before the directory is read. -/
def Library.load_songs (lib : Library)
    (dir : Except RustError (List (Except RustError DirEntry))) :
    Library × Except RustError Unit :=
  let lib := { lib with loaded_songs := [] }
  match dir with
  | Except.error e => (lib, Except.error e)
  | Except.ok entries => loadSongsLoop lib entries

/-- youtube.rs YouTubeDownload: one fetch request, identified by its video id. -/
structure YouTubeDownload where
  id : String
deriving DecidableEq

/-- The downloader's error taxonomy. The source signals these as anyhow
errors ("Downloaded MP3 could not be located." / "Downloaded thumbnail could
not be located.", the exit-status error of status.exit_ok(), and I/O or image
errors); the constructor names follow the spec's taxonomy (DownloadError
itself lives in a part of the repository outside src/). -/
inductive DownloadError
  | externalToolFailure (code : Nat)
  | downloadMissing
  | thumbnailMissing
  | imageDecodeFailure
  | io
deriving DecidableEq

/-- The fixed list of thumbnail extensions the downloader tries, in order. -/
def thumbnail_possible_extensions : List String := ["jpg", "jpeg", "webp", "png"]

/-- The path at which the download of the given id with the given extension
is expected (library_path.join(...)). -/
def downloadArtifactPath (libraryPath id ext : String) : String :=
  libraryPath ++ "/" ++ id ++ "." ++ ext

/-- YouTubeDownload::download, from the point where the fetch process's
output stream has ended: the streamed metadata (if any) is in hand, the
process's exit status is known, and the library directory is in the given
state. Mirrors the source: fall back to minimal metadata stamped with the
current time; check the exit status; locate the downloaded MP3; locate the
thumbnail by trying the fixed extension list in order; decode and re-encode
the thumbnail (the external image library is the decodeToJpeg oracle, none
modelling a decode failure); delete the thumbnail file; attach the art; write
the metadata into the MP3's tag. -/
def YouTubeDownload.download (d : YouTubeDownload) (libraryPath : String)
    (streamedMetadata : Option SongMetadata) (nowTime : Nat) (exitCode : Nat)
    (decodeToJpeg : List Nat → Option (List Nat)) (fs : FS) :
    FS × Except DownloadError Unit :=
  let metadata := streamedMetadata.getD
    { title := d.id
      artist := "Unknown Artist"
      album := "Unknown Album"
      youtube_id := d.id
      album_art := none
      is_cropped := false
      is_metadata_edited := false
      download_unix_time := nowTime }
  if exitCode ≠ 0 then (fs, Except.error (DownloadError.externalToolFailure exitCode))
  else
    let download_path := downloadArtifactPath libraryPath d.id ("mp3")
    if (fs download_path).isSome = false then (fs, Except.error DownloadError.downloadMissing)
    else
      match thumbnail_possible_extensions.findSome? (fun ext =>
          let path := downloadArtifactPath libraryPath d.id ext
          (fs path).map (fun f => (path, f))) with
      | none => (fs, Except.error DownloadError.thumbnailMissing)
      | some (thumbnail_path, thumbnail_file) =>
        match decodeToJpeg thumbnail_file.content with
        | none => (fs, Except.error DownloadError.imageDecodeFailure)
        | some thumbnail_data =>
          let thumbnail_picture : Picture :=
            { mime_type := "image/jpeg"
              picture_type := PictureType.coverFront
              description := "Cover"
              data := thumbnail_data }
          let fs1 := fs.remove thumbnail_path
          let metadata := { metadata with album_art := some thumbnail_picture }
          match metadata.write_into_file fs1 download_path with
          | Except.error _ => (fs1, Except.error DownloadError.io)
          | Except.ok fs2 => (fs2, Except.ok ())

/-- One position of the two URL regexes of extract_video_id: a literal
character, or the regex '.' wildcard (any character except a newline). -/
inductive PatChar
  | lit (c : Char)
  | wild
deriving DecidableEq

/-- Whether one pattern position accepts one character. -/
def patCharAccepts : PatChar → Char → Bool
  | PatChar.lit c, x => x = c
  | PatChar.wild, x => x ≠ '\n'

/-- Consume the fixed-shape part of the regex from the front of the string,
returning the remainder. -/
def patConsume : List PatChar → List Char → Option (List Char)
  | [], s => some s
  | _ :: _, [] => none
  | p :: ps, c :: cs => if patCharAccepts p c then patConsume ps cs else none

/-- Attempt a regex match anchored at the start of the string: the fixed part
followed by the greedy capture ([^&]+), which takes the maximal nonempty run
of non-ampersand characters (the trailing &? of the regex does not affect the
capture). -/
def patCaptureHere (pat : List PatChar) (s : List Char) : Option (List Char) :=
  match patConsume pat s with
  | some rest =>
    let cap := rest.takeWhile (fun c => c ≠ '&')
    if cap = [] then none else some cap
  | none => none

/-- Regex::captures: the leftmost match, scanning start positions left to
right. -/
def patSearch (pat : List PatChar) : List Char → Option (List Char)
  | [] => patCaptureHere pat []
  | c :: rest =>
    match patCaptureHere pat (c :: rest) with
    | some cap => some cap
    | none => patSearch pat rest

/-- A literal run of pattern characters. -/
def patLits (s : String) : List PatChar := s.data.map PatChar.lit

/-- The regex "youtube.com/watch\?v=([^&]+)&?" — the dot is an unescaped
wildcard. -/
def long_url_pattern : List PatChar :=
  patLits ("youtube") ++ [PatChar.wild] ++ patLits ("com/watch?v=")

/-- The regex "youtu.be/([^&]+)&?" — the dot is an unescaped wildcard. -/
def short_url_pattern : List PatChar :=
  patLits ("youtu") ++ [PatChar.wild] ++ patLits ("be/")

/-- youtube.rs extract_video_id: the long-URL capture if that regex matches,
else the short-URL capture if that one matches, else the input string
unchanged. -/
def extract_video_id (s : String) : String :=
  match patSearch long_url_pattern s.data with
  | some cap => ⟨cap⟩
  | none =>
    match patSearch short_url_pattern s.data with
    | some cap => ⟨cap⟩
    | none => s

/-- Whether a tag has a comment with the given description. -/
def Tag.hasCommentWithDesc (t : Tag) (d : String) : Bool :=
  (t.comments.find? (fun c => c.description = d)).isSome

/-- The metadata load_songs reconstructs from a tag (given the YouTube ID
comment it found): standard frames with "Unknown X" defaults, the ID
comment's text, the album art, the two presence flags, and the download time
parsed leniently with a 0 fallback. -/
def songMetadataOfTag (tag : Tag) (video_id : Comment) : SongMetadata :=
  { title := tag.title.getD ("Unknown Title")
    artist := tag.artist.getD ("Unknown Artist")
    album := tag.album.getD ("Unknown Album")
    youtube_id := video_id.text
    album_art := SongMetadata.get_album_art tag
    is_cropped := SongMetadata.get_cropped tag
    is_metadata_edited := SongMetadata.get_metadata_edited tag
    download_unix_time :=
      (((SongMetadata.get_download_unix_time tag).map
        (fun c => parseU64 c.text)).join).getD 0 }

/-- The song load_songs produces for one directory entry, if any: the entry
must have an extension lowercasing to "mp3", a readable tag, and a YouTube ID
comment. -/
def songOfEntry (entry : DirEntry) : Option Song :=
  if (pathExtension entry.path).map asciiLowercase = some ("mp3") then
    match entry.tagRead with
    | some tag =>
      match SongMetadata.get_youtube_id tag with
      | some video_id => some { path := entry.path, metadata := songMetadataOfTag tag video_id }
      | none => none
    | none => none
  else none

/-- A decomposition witnessing that a regex with fixed part pat occurs in s
with at least one non-ampersand character right after it (i.e. the regex
matches somewhere in s). -/
def patHasMatch (pat : List PatChar) (s : List Char) : Prop :=
  ∃ pre mid c post, s = pre ++ mid ++ c :: post ∧
    List.Forall₂ (fun p x => patCharAccepts p x = true) pat mid ∧ c ≠ '&'

/-- A decomposition witnessing that cap is a capture of the regex with fixed
part pat in s: cap is a nonempty ampersand-free run right after an occurrence
of the fixed part, and it is maximal (what follows is the end of the string
or an ampersand). -/
def patCapturesIn (pat : List PatChar) (s cap : List Char) : Prop :=
  ∃ pre mid post, s = pre ++ mid ++ cap ++ post ∧
    List.Forall₂ (fun p x => patCharAccepts p x = true) pat mid ∧
    cap ≠ [] ∧ (∀ c ∈ cap, c ≠ '&') ∧
    (post = [] ∨ ∃ t, post = '&' :: t)

/-- A concrete song used by witnesses: a previously loaded library entry. -/
def fxOldSong : Song :=
  { path := "old.mp3",
    metadata :=
      { title := "Old", artist := "O", album := "O", youtube_id := "old",
        album_art := none, is_cropped := false, is_metadata_edited := false,
        download_unix_time := 1 } }

/-- A concrete tag carrying a CrossPlay YouTube ID comment. -/
def fxTagA : Tag :=
  { comments := [{ lang := "eng", description := "[CrossPlay] YouTube ID",
                   text := "vid1" }] }

/-- A concrete directory entry for an MP3 with the required ID comment. -/
def fxEntryA : DirEntry := { path := "root/a.mp3", tagRead := some fxTagA }

/-- The song load_songs builds for fxEntryA. -/
def fxSongA : Song :=
  { path := "root/a.mp3",
    metadata :=
      { title := "Unknown Title", artist := "Unknown Artist",
        album := "Unknown Album", youtube_id := "vid1", album_art := none,
        is_cropped := false, is_metadata_edited := false, download_unix_time := 0 } }

/-- A concrete MP3 entry with a readable tag that has no YouTube ID comment. -/
def fxEntryNoId : DirEntry := { path := "root/c.mp3", tagRead := some {} }

/-- A concrete download-time comment whose text is not a number. -/
def fxBadTimeComment : Comment :=
  { lang := "eng", description := "[CrossPlay] Download time", text := "banana" }

/-- A concrete tag with the required ID and a malformed download time. -/
def fxTagBadTime : Tag :=
  { comments := [{ lang := "eng", description := "[CrossPlay] YouTube ID",
                   text := "vid4" },
                 fxBadTimeComment] }

/-- A concrete MP3 entry whose download-time comment text is not a number. -/
def fxEntryBadTime : DirEntry :=
  { path := "root/d.mp3", tagRead := some fxTagBadTime }

/-! ### Lemmas: decimal round-trip -/

theorem natDecDigitsAux_eq_digits (fuel : Nat) :
    ∀ n, n ≤ fuel → natDecDigitsAux fuel n = Nat.digits 10 n := by
  induction fuel with
  | zero =>
    intro n hn
    interval_cases n
    simp [natDecDigitsAux]
  | succ fuel ih =>
    intro n hn
    match n with
    | 0 => simp [natDecDigitsAux]
    | m + 1 =>
      rw [natDecDigitsAux, Nat.digits_def' (by norm_num : (1 : Nat) < 10) (Nat.succ_pos m)]
      have hdiv : (m + 1) / 10 ≤ fuel := by
        have := Nat.div_lt_self (Nat.succ_pos m) (by norm_num : (1 : Nat) < 10)
        omega
      rw [ih _ hdiv]

theorem natDigitChar_spec (d : Nat) (hd : d < 10) :
    digitVal (natDigitChar d) = d ∧ (natDigitChar d).isDigit = true ∧
      natDigitChar d ≠ '+' := by
  interval_cases d <;> exact ⟨by decide, by decide, by decide⟩

theorem parseU64_natToString (n : Nat) (hn : n < 2 ^ 64) :
    parseU64 (natToString n) = some n := by
  by_cases h0 : n = 0
  · subst h0
    decide
  · have hL : natToString n = ⟨((Nat.digits 10 n).map natDigitChar).reverse⟩ := by
      rw [natToString, if_neg h0, natDecDigitsAux_eq_digits n n le_rfl]
    have hmem : ∀ d ∈ Nat.digits 10 n, d < 10 :=
      fun d hd => Nat.digits_lt_base (by norm_num) hd
    have hnil : Nat.digits 10 n ≠ [] := Nat.digits_ne_nil_iff_ne_zero.mpr h0
    rw [hL, parseU64]
    show parseU64Chars (((Nat.digits 10 n).map natDigitChar).reverse) = some n
    obtain ⟨c, cs, hcs⟩ : ∃ c cs, ((Nat.digits 10 n).map natDigitChar).reverse = c :: cs := by
      rcases hrev : ((Nat.digits 10 n).map natDigitChar).reverse with _ | ⟨c, cs⟩
      · exfalso
        apply hnil
        have := congrArg List.reverse hrev
        simpa using this
      · exact ⟨c, cs, rfl⟩
    have hcmem : ∀ x ∈ c :: cs, ∃ d, d < 10 ∧ x = natDigitChar d := by
      intro x hx
      rw [← hcs] at hx
      rw [List.mem_reverse, List.mem_map] at hx
      obtain ⟨d, hd, hx⟩ := hx
      exact ⟨d, hmem d hd, hx.symm⟩
    rw [hcs, parseU64Chars.eq_def]
    simp only []
    have hcplus : c = '+' → False := by
      intro hc
      obtain ⟨d, hd, hcd⟩ := hcmem c (List.mem_cons_self c cs)
      exact (natDigitChar_spec d hd).2.2 (hcd ▸ hc)
    simp only [if_neg hcplus]
    have hne : (c :: cs : List Char) = [] → False := by simp
    rw [if_neg hne]
    have halld : (c :: cs).all Char.isDigit = true := by
      rw [List.all_eq_true]
      intro x hx
      obtain ⟨d, hd, hxd⟩ := hcmem x hx
      exact hxd ▸ (natDigitChar_spec d hd).2.1
    rw [if_pos halld]
    have hval : ((c :: cs).map digitVal).reverse = Nat.digits 10 n := by
      rw [← hcs, ← List.map_reverse, List.reverse_reverse, List.map_map]
      have : ∀ d ∈ Nat.digits 10 n, (digitVal ∘ natDigitChar) d = id d := by
        intro d hd
        exact (natDigitChar_spec d (hmem d hd)).1
      rw [List.map_congr_left this, List.map_id]
    rw [hval, Nat.ofDigits_digits, if_pos hn]

/-! ### Lemmas: the custom-tag codec -/

theorem remove_comment_find?_none (t : Tag) (name : String) :
    ((t.remove_comment (some name) none).comments.find?
      (fun c => c.description = name)) = none := by
  apply List.find?_eq_none.mpr
  intro x hx
  simp only [Tag.remove_comment, List.mem_filter, Option.all, Bool.and_true,
    Bool.not_eq_true', decide_eq_false_iff_not] at hx
  intro hcontra
  exact hx.2 ((of_decide_eq_true hcontra).symm)

theorem write_custom_none_find? {T : Type} (C : CustomTagDef T) (t : Tag) (v : T)
    (h : C.to_comment_text v = none) :
    (write_custom C t v).comments.find? (fun c => c.description = C.NAME) = none := by
  rw [write_custom, h]
  exact remove_comment_find?_none t C.NAME

theorem write_custom_some_find? {T : Type} (C : CustomTagDef T) (t : Tag) (v : T)
    (text : String) (h : C.to_comment_text v = some text) :
    (write_custom C t v).comments.find? (fun c => c.description = C.NAME) =
      some { lang := "eng", description := C.NAME, text := text } := by
  rw [write_custom, h]
  show ((Tag.addCommentFrame _ _).comments.find? _) = _
  rw [Tag.addCommentFrame]
  show ((_ ++ [_]).find? _) = _
  rw [List.find?_append]
  have hleft : ∀ q : Comment → Bool,
      (((t.remove_comment (some C.NAME) none).comments.filter q).find?
        (fun c => c.description = C.NAME)) = none := by
    intro q
    apply List.find?_eq_none.mpr
    intro x hx
    have hx1 : x ∈ (t.remove_comment (some C.NAME) none).comments :=
      (List.mem_filter.mp hx).1
    simp only [Tag.remove_comment, List.mem_filter, Option.all, Bool.and_true,
      Bool.not_eq_true', decide_eq_false_iff_not] at hx1
    intro hcontra
    exact hx1.2 ((of_decide_eq_true hcontra).symm)
  rw [hleft]
  simp

theorem read_custom_write_custom {T : Type} (C : CustomTagDef T) (t : Tag) (v : T) :
    read_custom C (write_custom C t v) =
      match C.to_comment_text v with
      | some text =>
        (match C.from_comment_text text with
         | some w => Except.ok w
         | none => Except.error TagReadError.abort)
      | none =>
        (match C.value_if_comment_missing with
         | some w => Except.ok w
         | none => Except.error (TagReadError.missingRequired C.NAME)) := by
  cases hto : C.to_comment_text v with
  | some text =>
    rw [read_custom, write_custom_some_find? C t v text hto]
  | none =>
    rw [read_custom, write_custom_none_find? C t v hto]

/-! ### Lemmas: write_into_tag on a fresh tag -/

theorem write_into_tag_new_comments (md : SongMetadata) :
    (md.write_into_tag Tag.new).comments =
      [{ lang := "eng", description := TAG_KEY_YOUTUBE_ID, text := md.youtube_id },
       { lang := "eng", description := TAG_KEY_DOWNLOAD_TIME,
         text := natToString md.download_unix_time }]
      ++ (if md.is_cropped
          then [{ lang := "eng", description := TAG_KEY_IS_CROPPED, text := "" }] else [])
      ++ (if md.is_metadata_edited
          then [{ lang := "eng", description := TAG_KEY_IS_METADATA_EDITED, text := "" }]
          else []) := by
  cases hart : md.album_art <;> cases hcr : md.is_cropped <;> cases hed : md.is_metadata_edited <;>
    simp [SongMetadata.write_into_tag, Tag.set_title, Tag.set_artist, Tag.set_album,
      Tag.addPictureFrame, SongMetadata.set_youtube_id, SongMetadata.get_youtube_id,
      SongMetadata.set_download_unix_time, SongMetadata.get_download_unix_time,
      SongMetadata.mark_cropped, SongMetadata.mark_metadata_edited,
      Tag.addCommentFrame, Tag.remove_comment, Tag.new,
      TAG_KEY_YOUTUBE_ID, TAG_KEY_DOWNLOAD_TIME, TAG_KEY_IS_CROPPED,
      TAG_KEY_IS_METADATA_EDITED, hart, hcr, hed]

theorem write_into_tag_new_pictures (md : SongMetadata) :
    (md.write_into_tag Tag.new).pictures =
      (match md.album_art with
       | some a => [a]
       | none => []) := by
  cases hart : md.album_art <;> cases hcr : md.is_cropped <;> cases hed : md.is_metadata_edited <;>
    simp [SongMetadata.write_into_tag, Tag.set_title, Tag.set_artist, Tag.set_album,
      Tag.addPictureFrame, SongMetadata.set_youtube_id, SongMetadata.get_youtube_id,
      SongMetadata.set_download_unix_time, SongMetadata.get_download_unix_time,
      SongMetadata.mark_cropped, SongMetadata.mark_metadata_edited,
      Tag.addCommentFrame, Tag.remove_comment, Tag.new,
      TAG_KEY_YOUTUBE_ID, TAG_KEY_DOWNLOAD_TIME, TAG_KEY_IS_CROPPED,
      TAG_KEY_IS_METADATA_EDITED, hart, hcr, hed]

theorem write_into_tag_new_std_frames (md : SongMetadata) :
    (md.write_into_tag Tag.new).title = some md.title ∧
    (md.write_into_tag Tag.new).artist = some md.artist ∧
    (md.write_into_tag Tag.new).album = some md.album := by
  cases hart : md.album_art <;> cases hcr : md.is_cropped <;> cases hed : md.is_metadata_edited <;>
    simp [SongMetadata.write_into_tag, Tag.set_title, Tag.set_artist, Tag.set_album,
      Tag.addPictureFrame, SongMetadata.set_youtube_id, SongMetadata.get_youtube_id,
      SongMetadata.set_download_unix_time, SongMetadata.get_download_unix_time,
      SongMetadata.mark_cropped, SongMetadata.mark_metadata_edited,
      Tag.addCommentFrame, Tag.remove_comment, Tag.new,
      TAG_KEY_YOUTUBE_ID, TAG_KEY_DOWNLOAD_TIME, TAG_KEY_IS_CROPPED,
      TAG_KEY_IS_METADATA_EDITED, hart, hcr, hed]

theorem write_into_tag_new_readback (md : SongMetadata)
    (htime : md.download_unix_time < 2 ^ 64)
    (hart : ∀ p, md.album_art = some p → p.picture_type = PictureType.coverFront) :
    SongMetadata.get_youtube_id (md.write_into_tag Tag.new) =
      some { lang := "eng", description := TAG_KEY_YOUTUBE_ID, text := md.youtube_id } ∧
    songMetadataOfTag (md.write_into_tag Tag.new)
      { lang := "eng", description := TAG_KEY_YOUTUBE_ID, text := md.youtube_id } = md := by
  have hcomm := write_into_tag_new_comments md
  have hpic := write_into_tag_new_pictures md
  have hstd := write_into_tag_new_std_frames md
  have hyt : SongMetadata.get_youtube_id (md.write_into_tag Tag.new) =
      some { lang := "eng", description := TAG_KEY_YOUTUBE_ID, text := md.youtube_id } := by
    rw [SongMetadata.get_youtube_id, hcomm]
    cases md.is_cropped <;> cases md.is_metadata_edited <;> simp
  refine ⟨hyt, ?_⟩
  have hcrop : SongMetadata.get_cropped (md.write_into_tag Tag.new) = md.is_cropped := by
    rw [SongMetadata.get_cropped, hcomm]
    cases md.is_cropped <;> cases md.is_metadata_edited <;>
      simp [TAG_KEY_YOUTUBE_ID, TAG_KEY_DOWNLOAD_TIME, TAG_KEY_IS_CROPPED,
        TAG_KEY_IS_METADATA_EDITED]
  have hedit : SongMetadata.get_metadata_edited (md.write_into_tag Tag.new) =
      md.is_metadata_edited := by
    rw [SongMetadata.get_metadata_edited, hcomm]
    cases md.is_cropped <;> cases md.is_metadata_edited <;>
      simp [TAG_KEY_YOUTUBE_ID, TAG_KEY_DOWNLOAD_TIME, TAG_KEY_IS_CROPPED,
        TAG_KEY_IS_METADATA_EDITED]
  have htimeback : SongMetadata.get_download_unix_time (md.write_into_tag Tag.new) =
      some { lang := "eng", description := TAG_KEY_DOWNLOAD_TIME,
             text := natToString md.download_unix_time } := by
    rw [SongMetadata.get_download_unix_time, hcomm]
    cases md.is_cropped <;> cases md.is_metadata_edited <;>
      simp [TAG_KEY_YOUTUBE_ID, TAG_KEY_DOWNLOAD_TIME, TAG_KEY_IS_CROPPED,
        TAG_KEY_IS_METADATA_EDITED]
  have hartback : SongMetadata.get_album_art (md.write_into_tag Tag.new) = md.album_art := by
    rw [SongMetadata.get_album_art, hpic]
    cases ha : md.album_art with
    | none => simp
    | some a => simp [hart a ha]
  rw [songMetadataOfTag, hstd.1, hstd.2.1, hstd.2.2, hcrop, hedit, htimeback, hartback]
  simp [parseU64_natToString md.download_unix_time htime]

/-! ### Claim C1 -/

/-- Claim C1, amended: every SongMetadata field round-trips through the tag
codec — write then read yields the value back (the timestamp within its u64
range, album art when its picture type is cover-front; art of any other type
reads back as absent). A false boolean flag is encoded by the absence of its
tag entry, so writing false is indistinguishable from never writing, and a
missing flag reads back as false; a 0 timestamp, however, is written as an
explicit "0" entry (present, hence distinguishable from never writing),
though it still reads back as 0, and a missing timestamp also reads back
as 0. -/
theorem C1_tag_codec_round_trip (md : SongMetadata) (t : Tag)
    (htime : md.download_unix_time < 2 ^ 64)
    (hart : ∀ p, md.album_art = some p → p.picture_type = PictureType.coverFront) :
    read_custom YouTubeIdTag (write_custom YouTubeIdTag t md.youtube_id) =
      Except.ok md.youtube_id ∧
    read_custom CroppedTag (write_custom CroppedTag t md.is_cropped) =
      Except.ok md.is_cropped ∧
    read_custom MetadataEditedTag (write_custom MetadataEditedTag t md.is_metadata_edited) =
      Except.ok md.is_metadata_edited ∧
    read_custom DownloadTimeTag (write_custom DownloadTimeTag t md.download_unix_time) =
      Except.ok md.download_unix_time ∧
    Tag.hasCommentWithDesc (write_custom CroppedTag t false) TAG_KEY_IS_CROPPED = false ∧
    Tag.hasCommentWithDesc (write_custom DownloadTimeTag t 0) TAG_KEY_DOWNLOAD_TIME = true ∧
    read_custom CroppedTag Tag.new = Except.ok false ∧
    read_custom DownloadTimeTag Tag.new = Except.ok 0 ∧
    (∃ video_id, SongMetadata.get_youtube_id (md.write_into_tag Tag.new) = some video_id ∧
      songMetadataOfTag (md.write_into_tag Tag.new) video_id = md) := by
  refine ⟨?_, ?_, ?_, ?_, ?_, ?_, by rfl, by rfl, ?_⟩
  · rw [read_custom_write_custom]
    rfl
  · rw [read_custom_write_custom]
    cases md.is_cropped <;> rfl
  · rw [read_custom_write_custom]
    cases md.is_metadata_edited <;> rfl
  · rw [read_custom_write_custom]
    simp [DownloadTimeTag, parseU64_natToString md.download_unix_time htime]
  · rw [Tag.hasCommentWithDesc]
    have h := write_custom_none_find? CroppedTag t false rfl
    rw [show (TAG_KEY_IS_CROPPED : String) = CroppedTag.NAME from rfl, h]
    rfl
  · rw [Tag.hasCommentWithDesc]
    have h := write_custom_some_find? DownloadTimeTag t 0 (natToString 0) rfl
    rw [show (TAG_KEY_DOWNLOAD_TIME : String) = DownloadTimeTag.NAME from rfl, h]
    rfl
  · exact ⟨_, (write_into_tag_new_readback md htime hart).1,
      (write_into_tag_new_readback md htime hart).2⟩

/-- Claim C1 counterexample: writing a 0 timestamp is not encoded by the
absence of the tag entry — both the codec's write_custom and library.rs's
set_download_unix_time leave a present "[CrossPlay] Download time" entry, so
writing 0 is distinguishable from never writing; and album art whose picture
type is not cover-front does not read back equal. -/
theorem C1_zero_time_counterexample :
    Tag.hasCommentWithDesc (write_custom DownloadTimeTag Tag.new 0)
      TAG_KEY_DOWNLOAD_TIME = true ∧
    write_custom DownloadTimeTag Tag.new 0 ≠ Tag.new ∧
    Tag.hasCommentWithDesc
      (SongMetadata.set_download_unix_time
        { title := "t", artist := "a", album := "b", youtube_id := "y",
          album_art := none, is_cropped := false, is_metadata_edited := false,
          download_unix_time := 0 } Tag.new)
      TAG_KEY_DOWNLOAD_TIME = true ∧
    SongMetadata.get_album_art
      (SongMetadata.write_into_tag
        { title := "t", artist := "a", album := "b", youtube_id := "y",
          album_art := some { mime_type := "image/jpeg", picture_type := 0,
                              description := "x", data := [] },
          is_cropped := false, is_metadata_edited := false,
          download_unix_time := 1 } Tag.new) ≠
      some { mime_type := "image/jpeg", picture_type := 0, description := "x", data := [] } := by
  refine ⟨by decide, by decide, by decide, by decide⟩

/-- Claim C1 witness: the amended round-trip at a concrete metadata value. -/
theorem C1_round_trip_witness :
    read_custom DownloadTimeTag (write_custom DownloadTimeTag Tag.new 1700000000) =
      Except.ok 1700000000 ∧
    read_custom CroppedTag (write_custom CroppedTag Tag.new false) = Except.ok false := by
  have h := C1_tag_codec_round_trip
    { title := "Song", artist := "Artist", album := "Album", youtube_id := "abc123",
      album_art := none, is_cropped := false, is_metadata_edited := false,
      download_unix_time := 1700000000 }
    Tag.new (by norm_num) (by intro p hp; simp at hp)
  exact ⟨h.2.2.2.1, h.2.1⟩

/-! ### Lemmas: file-system operations -/

theorem FS.write_self (fs : FS) (p : String) (f : File) : fs.write p f p = some f := by
  simp [FS.write]

theorem FS.write_ne (fs : FS) (p q : String) (f : File) (h : q ≠ p) :
    fs.write p f q = fs q := by
  simp [FS.write, h]

theorem original_copy_path_ne (song : Song) : song.original_copy_path ≠ song.path := by
  rw [Song.original_copy_path]
  intro h
  have h2 := congrArg String.length h
  rw [String.length_append, show (".original" : String).length = 9 from rfl] at h2
  omega

theorem path_ne_original_copy (song : Song) : song.path ≠ song.original_copy_path :=
  fun h => original_copy_path_ne song h.symm

theorem create_original_copy_existing (song : Song) (fs : FS)
    (h : (fs song.original_copy_path).isSome = true) :
    song.create_original_copy fs = Except.ok fs := by
  rw [Song.create_original_copy, if_pos h]

theorem create_original_copy_fresh (song : Song) (fs : FS) (f : File)
    (hwork : fs song.path = some f) (hback : fs song.original_copy_path = none) :
    song.create_original_copy fs = Except.ok (fs.write song.original_copy_path f) := by
  rw [Song.create_original_copy, if_neg (by rw [hback]; simp), hwork]

theorem create_original_copy_preserves (song : Song) (fs fs1 : FS)
    (h : song.create_original_copy fs = Except.ok fs1) :
    (∀ p, p ≠ song.original_copy_path → fs1 p = fs p) ∧
      (fs1 song.original_copy_path).isSome = true := by
  rw [Song.create_original_copy] at h
  by_cases hb : (fs song.original_copy_path).isSome = true
  · rw [if_pos hb] at h
    cases h
    exact ⟨fun p _ => rfl, hb⟩
  · rw [if_neg hb] at h
    cases hw : fs song.path with
    | none => rw [hw] at h; cases h
    | some f =>
      rw [hw] at h
      cases h
      refine ⟨fun p hp => FS.write_ne fs _ p f hp, ?_⟩
      rw [FS.write_self]
      rfl

theorem crop_spec (song : Song) (fs fs1 : FS) (s e exit : Nat)
    (hcreate : song.create_original_copy fs = Except.ok fs1) :
    (exit ≠ 0 → song.crop fs s e exit =
      (fs1, song, Except.error (RustError.exitStatus exit))) ∧
    (exit = 0 → ∀ b, fs1 song.original_copy_path = some b →
      song.crop fs s e exit =
        ((fs1.write song.path
            { content := (b.content.take e).drop s, tag := Tag.new }).write song.path
          { content := (b.content.take e).drop s,
            tag := SongMetadata.write_into_tag
              { song.metadata with is_cropped := true } Tag.new },
         { song with metadata := { song.metadata with is_cropped := true } },
         Except.ok ())) := by
  constructor
  · intro hexit
    simp [Song.crop, hcreate, ffmpegInvoke, hexit]
  · intro hexit b hb
    subst hexit
    simp [Song.crop, hcreate, ffmpegInvoke, hb, SongMetadata.write_into_file,
      FS.write_self]

theorem user_edit_metadata_spec (song : Song) (fs fs1 : FS)
    (hcreate : song.create_original_copy fs = Except.ok fs1) :
    (∀ f, fs1 song.path = some f →
      song.user_edit_metadata fs =
        (fs1.write song.path
          { f with tag := (SongMetadata.write_into_tag
              { song.metadata with is_metadata_edited := true } Tag.new) },
         { song with metadata := { song.metadata with is_metadata_edited := true } },
         Except.ok ())) ∧
    (fs1 song.path = none →
      song.user_edit_metadata fs =
        (fs1, { song with metadata := { song.metadata with is_metadata_edited := true } },
         Except.error RustError.io)) := by
  constructor
  · intro f hf
    rw [Song.user_edit_metadata, hcreate]
    show (match SongMetadata.write_into_file _ fs1 song.path with
      | Except.error e => _
      | Except.ok fs2 => _) = _
    rw [SongMetadata.write_into_file, hf]
  · intro hf
    rw [Song.user_edit_metadata, hcreate]
    show (match SongMetadata.write_into_file _ fs1 song.path with
      | Except.error e => _
      | Except.ok fs2 => _) = _
    rw [SongMetadata.write_into_file, hf]

/-! ### Claim C6 -/

/-- Claim C6: create_original_copy is a no-op when the backup already exists
(the file system is returned unchanged, so no copy is performed), otherwise it
byte-copies the working file to the backup path; it is idempotent; and both
destructive mutations (crop — with any exit status for the external tool —
and user_edit_metadata) establish the backup first and never overwrite an
existing backup. -/
theorem C6_backup_idempotent_and_first (song : Song) (fs : FS) :
    ((fs song.original_copy_path).isSome = true →
      song.create_original_copy fs = Except.ok fs) ∧
    (∀ f, fs song.path = some f → fs song.original_copy_path = none →
      song.create_original_copy fs = Except.ok (fs.write song.original_copy_path f)) ∧
    (∀ fs1, song.create_original_copy fs = Except.ok fs1 →
      song.create_original_copy fs1 = Except.ok fs1) ∧
    (∀ f s e exit, fs song.path = some f → fs song.original_copy_path = none →
      (song.crop fs s e exit).1 song.original_copy_path = some f) ∧
    (∀ b s e exit, fs song.original_copy_path = some b →
      (song.crop fs s e exit).1 song.original_copy_path = some b) ∧
    (∀ f, fs song.path = some f → fs song.original_copy_path = none →
      (song.user_edit_metadata fs).1 song.original_copy_path = some f) ∧
    (∀ b, fs song.original_copy_path = some b →
      (song.user_edit_metadata fs).1 song.original_copy_path = some b) := by
  refine ⟨create_original_copy_existing song fs, create_original_copy_fresh song fs,
    ?_, ?_, ?_, ?_, ?_⟩
  · intro fs1 h
    exact create_original_copy_existing song fs1 (create_original_copy_preserves song fs fs1 h).2
  · intro f s e exit hw hb
    have hc := create_original_copy_fresh song fs f hw hb
    have hb1 : (fs.write song.original_copy_path f) song.original_copy_path = some f :=
      FS.write_self fs _ f
    by_cases hexit : exit = 0
    · subst hexit
      rw [(crop_spec song fs _ s e 0 hc).2 rfl f hb1]
      show ((_ : FS).write song.path _) song.original_copy_path = some f
      rw [FS.write_ne _ _ _ _ (original_copy_path_ne song),
        FS.write_ne _ _ _ _ (original_copy_path_ne song)]
      exact hb1
    · rw [(crop_spec song fs _ s e exit hc).1 hexit]
      exact hb1
  · intro b s e exit hb
    have hc := create_original_copy_existing song fs (by rw [hb]; rfl)
    by_cases hexit : exit = 0
    · subst hexit
      rw [(crop_spec song fs fs s e 0 hc).2 rfl b hb]
      show ((_ : FS).write song.path _) song.original_copy_path = some b
      rw [FS.write_ne _ _ _ _ (original_copy_path_ne song),
        FS.write_ne _ _ _ _ (original_copy_path_ne song)]
      exact hb
    · rw [(crop_spec song fs fs s e exit hc).1 hexit]
      exact hb
  · intro f hw hb
    have hc := create_original_copy_fresh song fs f hw hb
    have hpath : (fs.write song.original_copy_path f) song.path = some f := by
      rw [FS.write_ne _ _ _ _ (path_ne_original_copy song)]
      exact hw
    rw [(user_edit_metadata_spec song fs _ hc).1 f hpath]
    show ((_ : FS).write song.path _) song.original_copy_path = some f
    rw [FS.write_ne _ _ _ _ (original_copy_path_ne song)]
    exact FS.write_self fs _ f
  · intro b hb
    have hc := create_original_copy_existing song fs (by rw [hb]; rfl)
    cases hwp : fs song.path with
    | some f =>
      rw [(user_edit_metadata_spec song fs fs hc).1 f hwp]
      show ((_ : FS).write song.path _) song.original_copy_path = some b
      rw [FS.write_ne _ _ _ _ (original_copy_path_ne song)]
      exact hb
    | none =>
      rw [(user_edit_metadata_spec song fs fs hc).2 hwp]
      exact hb

/-- Claim C6 witness: cropping a concrete fresh song establishes the backup
with the original working content. -/
theorem C6_backup_witness :
    (Song.crop
      { path := "a.mp3",
        metadata :=
          { title := "t", artist := "a", album := "b", youtube_id := "y",
            album_art := none, is_cropped := false, is_metadata_edited := false,
            download_unix_time := 5 } }
      (fun q => if q = ("a.mp3" : String)
        then some { content := [1, 2, 3], tag := Tag.new } else none)
      1 2 0).1 ("a.mp3.original") = some { content := [1, 2, 3], tag := Tag.new } := by
  have h := C6_backup_idempotent_and_first
    { path := "a.mp3",
      metadata :=
        { title := "t", artist := "a", album := "b", youtube_id := "y",
          album_art := none, is_cropped := false, is_metadata_edited := false,
          download_unix_time := 5 } }
    (fun q => if q = ("a.mp3" : String)
      then some { content := [1, 2, 3], tag := Tag.new } else none)
  exact h.2.2.2.1 { content := [1, 2, 3], tag := Tag.new } 1 2 0 (by rfl) (by rfl)

/-! ### Claim C2 -/

/-- Claim C2: crop is backup-relative, not cumulative. For a fresh song the
first crop establishes the backup as the byte-copy of the original working
file and trims relative to it; a second crop on the already-cropped song
again reads the pristine backup, so its output content is the [s2, e2) slice
of the original content, not a slice of the first crop's result, and the
backup itself is never changed. -/
theorem C2_crop_backup_relative (song : Song) (fs : FS) (f0 : File) (s1 e1 s2 e2 : Nat)
    (hwork : fs song.path = some f0)
    (hback : fs song.original_copy_path = none) :
    (Song.crop song fs s1 e1 0).2.2 = Except.ok () ∧
    (Song.crop song fs s1 e1 0).1 song.original_copy_path = some f0 ∧
    ((Song.crop song fs s1 e1 0).1 song.path).map File.content =
      some ((f0.content.take e1).drop s1) ∧
    (Song.crop (Song.crop song fs s1 e1 0).2.1 (Song.crop song fs s1 e1 0).1 s2 e2 0).2.2 =
      Except.ok () ∧
    ((Song.crop (Song.crop song fs s1 e1 0).2.1 (Song.crop song fs s1 e1 0).1 s2 e2 0).1
        song.path).map File.content =
      some ((f0.content.take e2).drop s2) ∧
    (Song.crop (Song.crop song fs s1 e1 0).2.1 (Song.crop song fs s1 e1 0).1 s2 e2 0).1
        song.original_copy_path = some f0 := by
  have hc := create_original_copy_fresh song fs f0 hwork hback
  have hb1 : (fs.write song.original_copy_path f0) song.original_copy_path = some f0 :=
    FS.write_self fs _ f0
  have r1eq := (crop_spec song fs _ s1 e1 0 hc).2 rfl f0 hb1
  have hocp1 : (Song.crop song fs s1 e1 0).1 song.original_copy_path = some f0 := by
    rw [r1eq]
    show ((_ : FS).write song.path _) song.original_copy_path = some f0
    rw [FS.write_ne _ _ _ _ (original_copy_path_ne song),
      FS.write_ne _ _ _ _ (original_copy_path_ne song)]
    exact hb1
  have hsong1 : (Song.crop song fs s1 e1 0).2.1 =
      { song with metadata := { song.metadata with is_cropped := true } } := by
    rw [r1eq]
  have hpath1 : (Song.crop song fs s1 e1 0).2.1.path = song.path := by
    rw [hsong1]
  have hocp1' : (Song.crop song fs s1 e1 0).2.1.original_copy_path =
      song.original_copy_path := by
    rw [Song.original_copy_path, Song.original_copy_path, hpath1]
  have hc2 := create_original_copy_existing (Song.crop song fs s1 e1 0).2.1
    (Song.crop song fs s1 e1 0).1 (by rw [hocp1', hocp1]; rfl)
  have hb2 : (Song.crop song fs s1 e1 0).1
      (Song.crop song fs s1 e1 0).2.1.original_copy_path = some f0 := by
    rw [hocp1']
    exact hocp1
  have r2eq := (crop_spec (Song.crop song fs s1 e1 0).2.1 (Song.crop song fs s1 e1 0).1
    _ s2 e2 0 hc2).2 rfl f0 hb2
  refine ⟨by rw [r1eq], hocp1, ?_, by rw [r2eq], ?_, ?_⟩
  · rw [r1eq]
    show (((_ : FS).write song.path _) song.path).map File.content = _
    rw [FS.write_self]
    rfl
  · rw [r2eq]
    show (((_ : FS).write (Song.crop song fs s1 e1 0).2.1.path _)
      song.path).map File.content = _
    rw [hpath1, FS.write_self]
    rfl
  · rw [r2eq, hpath1]
    show (((Song.crop song fs s1 e1 0).1.write song.path _).write song.path _)
      song.original_copy_path = some f0
    rw [FS.write_ne _ _ _ _ (original_copy_path_ne song),
      FS.write_ne _ _ _ _ (original_copy_path_ne song)]
    exact hocp1

/-- Claim C2 witness: on a concrete 4-sample file, crop(1,3) then crop(0,2)
yields the [0,2) slice of the original samples, not of the cropped ones. -/
theorem C2_crop_witness :
    ((Song.crop
        (Song.crop
          { path := "c.mp3",
            metadata :=
              { title := "t", artist := "a", album := "b", youtube_id := "y",
                album_art := none, is_cropped := false, is_metadata_edited := false,
                download_unix_time := 0 } }
          (fun q => if q = ("c.mp3" : String)
            then some { content := [10, 20, 30, 40], tag := Tag.new } else none)
          1 3 0).2.1
        (Song.crop
          { path := "c.mp3",
            metadata :=
              { title := "t", artist := "a", album := "b", youtube_id := "y",
                album_art := none, is_cropped := false, is_metadata_edited := false,
                download_unix_time := 0 } }
          (fun q => if q = ("c.mp3" : String)
            then some { content := [10, 20, 30, 40], tag := Tag.new } else none)
          1 3 0).1
        0 2 0).1 ("c.mp3")).map File.content = some [10, 20] := by
  have h := C2_crop_backup_relative
    { path := "c.mp3",
      metadata :=
        { title := "t", artist := "a", album := "b", youtube_id := "y",
          album_art := none, is_cropped := false, is_metadata_edited := false,
          download_unix_time := 0 } }
    (fun q => if q = ("c.mp3" : String)
      then some { content := [10, 20, 30, 40], tag := Tag.new } else none)
    { content := [10, 20, 30, 40], tag := Tag.new } 1 3 0 2 (by rfl) (by rfl)
  exact h.2.2.2.2.1

/-! ### Claim C3 -/

/-- Claim C3, amended: when the external trim tool exits with a non-zero
status, crop returns the exit-status error and the song's in-memory metadata
and flags are unchanged; every path other than the backup path is unchanged
on disk, and if the backup already existed the file system is entirely
unchanged — but if the backup did not yet exist, the attempt has still
created it (backup creation precedes the tool invocation). -/
theorem C3_crop_failure_atomic (song : Song) (fs : FS) (s e exit : Nat)
    (hexit : exit ≠ 0)
    (hok : (fs song.original_copy_path).isSome = true ∨ (fs song.path).isSome = true) :
    (Song.crop song fs s e exit).2.2 = Except.error (RustError.exitStatus exit) ∧
    (Song.crop song fs s e exit).2.1 = song ∧
    (∀ p, p ≠ song.original_copy_path → (Song.crop song fs s e exit).1 p = fs p) ∧
    ((fs song.original_copy_path).isSome = true → (Song.crop song fs s e exit).1 = fs) := by
  by_cases hb : (fs song.original_copy_path).isSome = true
  · have hc := create_original_copy_existing song fs hb
    have req := (crop_spec song fs fs s e exit hc).1 hexit
    rw [req]
    exact ⟨rfl, rfl, fun p _ => rfl, fun _ => rfl⟩
  · have hbn : fs song.original_copy_path = none := by
      cases h : fs song.original_copy_path with
      | none => rfl
      | some b => rw [h] at hb; exact absurd rfl hb
    cases hw : fs song.path with
    | none =>
      exfalso
      rcases hok with h | h
      · exact hb h
      · rw [hw] at h; exact Bool.noConfusion h
    | some f =>
      have hc := create_original_copy_fresh song fs f hw hbn
      have req := (crop_spec song fs _ s e exit hc).1 hexit
      rw [req]
      refine ⟨rfl, rfl, fun p hp => FS.write_ne fs _ p f hp, fun hcontra => ?_⟩
      rw [hbn] at hcontra
      exact Bool.noConfusion hcontra

/-- Claim C3 counterexample: the claim as stated fails — on a song with no
pre-existing backup, a failed crop (tool exit status 1) does change the
on-disk state: the backup file exists afterwards though it did not before. -/
theorem C3_crop_failure_counterexample :
    (Song.crop
      { path := "s.mp3",
        metadata :=
          { title := "t", artist := "a", album := "b", youtube_id := "y",
            album_art := none, is_cropped := false, is_metadata_edited := false,
            download_unix_time := 0 } }
      (fun q => if q = ("s.mp3" : String)
        then some { content := [7], tag := Tag.new } else none)
      1 2 1).2.2 = Except.error (RustError.exitStatus 1) ∧
    (Song.crop
      { path := "s.mp3",
        metadata :=
          { title := "t", artist := "a", album := "b", youtube_id := "y",
            album_art := none, is_cropped := false, is_metadata_edited := false,
            download_unix_time := 0 } }
      (fun q => if q = ("s.mp3" : String)
        then some { content := [7], tag := Tag.new } else none)
      1 2 1).1 ("s.mp3.original") ≠
    (fun q => if q = ("s.mp3" : String)
      then some { content := [7], tag := Tag.new } else none : FS) ("s.mp3.original") := by
  refine ⟨by rfl, by decide⟩

/-- Claim C3 witness: a failed crop with the backup already present leaves
the file system entirely unchanged and surfaces the exit status. -/
theorem C3_crop_failure_witness :
    (Song.crop
      { path := "w.mp3",
        metadata :=
          { title := "t", artist := "a", album := "b", youtube_id := "y",
            album_art := none, is_cropped := false, is_metadata_edited := false,
            download_unix_time := 0 } }
      (fun q => if q = ("w.mp3" : String) then some { content := [1], tag := Tag.new }
        else if q = ("w.mp3.original" : String) then some { content := [2], tag := Tag.new }
        else none)
      1 2 7).2.2 = Except.error (RustError.exitStatus 7) ∧
    (Song.crop
      { path := "w.mp3",
        metadata :=
          { title := "t", artist := "a", album := "b", youtube_id := "y",
            album_art := none, is_cropped := false, is_metadata_edited := false,
            download_unix_time := 0 } }
      (fun q => if q = ("w.mp3" : String) then some { content := [1], tag := Tag.new }
        else if q = ("w.mp3.original" : String) then some { content := [2], tag := Tag.new }
        else none)
      1 2 7).1 =
    (fun q => if q = ("w.mp3" : String) then some { content := [1], tag := Tag.new }
      else if q = ("w.mp3.original" : String) then some { content := [2], tag := Tag.new }
      else none) := by
  have h := C3_crop_failure_atomic
    { path := "w.mp3",
      metadata :=
        { title := "t", artist := "a", album := "b", youtube_id := "y",
          album_art := none, is_cropped := false, is_metadata_edited := false,
          download_unix_time := 0 } }
    (fun q => if q = ("w.mp3" : String) then some { content := [1], tag := Tag.new }
      else if q = ("w.mp3.original" : String) then some { content := [2], tag := Tag.new }
      else none)
    1 2 7 (by decide) (Or.inl (by rfl))
  exact ⟨h.1, h.2.2.2 (by rfl)⟩

theorem create_original_copy_ok_of_work (song : Song) (fs : FS) (f : File)
    (hf : fs song.path = some f) :
    ∃ fs1, song.create_original_copy fs = Except.ok fs1 ∧ fs1 song.path = some f := by
  by_cases hb : (fs song.original_copy_path).isSome = true
  · exact ⟨fs, create_original_copy_existing song fs hb, hf⟩
  · have hbn : fs song.original_copy_path = none := by
      cases h : fs song.original_copy_path with
      | none => rfl
      | some b => rw [h] at hb; exact absurd rfl hb
    refine ⟨_, create_original_copy_fresh song fs f hf hbn, ?_⟩
    rw [FS.write_ne _ _ _ _ (path_ne_original_copy song)]
    exact hf

theorem user_edit_tag_result (song : Song) (fs : FS) (f : File)
    (hf : fs song.path = some f) :
    (Song.user_edit_metadata song fs).2.2 = Except.ok () ∧
    ((Song.user_edit_metadata song fs).1 song.path).map File.tag =
      some (SongMetadata.write_into_tag
        { song.metadata with is_metadata_edited := true } Tag.new) := by
  obtain ⟨fs1, hc, hf1⟩ := create_original_copy_ok_of_work song fs f hf
  rw [(user_edit_metadata_spec song fs fs1 hc).1 f hf1]
  refine ⟨rfl, ?_⟩
  show ((fs1.write song.path _) song.path).map File.tag = _
  rw [FS.write_self]
  rfl

/-! ### Claim C9 -/

/-- Claim C9: write_into_file builds the tag from scratch, so after a
metadata edit (and likewise after a successful crop) the working file's tag
is exactly the serialization of the current SongMetadata into an empty tag —
independent of whatever tag the file had before (any foreign comment frames
and pictures are discarded): the fresh tag's comments all use the four
CrossPlay keys and its only picture is the current album art. -/
theorem C9_write_discards_foreign_tags (song : Song) (fs : FS) (f : File) (s e : Nat)
    (hf : fs song.path = some f) :
    (Song.user_edit_metadata song fs).2.2 = Except.ok () ∧
    ((Song.user_edit_metadata song fs).1 song.path).map File.tag =
      some (SongMetadata.write_into_tag
        { song.metadata with is_metadata_edited := true } Tag.new) ∧
    ((Song.crop song fs s e 0).1 song.path).map File.tag =
      some (SongMetadata.write_into_tag
        { song.metadata with is_cropped := true } Tag.new) ∧
    (∀ g : File,
      ((Song.user_edit_metadata song (fs.write song.path g)).1 song.path).map File.tag =
        some (SongMetadata.write_into_tag
          { song.metadata with is_metadata_edited := true } Tag.new)) ∧
    (∀ md : SongMetadata, ∀ c ∈ (SongMetadata.write_into_tag md Tag.new).comments,
      c.description = TAG_KEY_YOUTUBE_ID ∨ c.description = TAG_KEY_DOWNLOAD_TIME ∨
        c.description = TAG_KEY_IS_CROPPED ∨ c.description = TAG_KEY_IS_METADATA_EDITED) ∧
    (∀ md : SongMetadata, ∀ p ∈ (SongMetadata.write_into_tag md Tag.new).pictures,
      md.album_art = some p) := by
  refine ⟨(user_edit_tag_result song fs f hf).1, (user_edit_tag_result song fs f hf).2,
    ?_, ?_, ?_, ?_⟩
  · obtain ⟨fs1, hc, hf1⟩ := create_original_copy_ok_of_work song fs f hf
    obtain ⟨b, hb⟩ : ∃ b, fs1 song.original_copy_path = some b := by
      have h2 := (create_original_copy_preserves song fs fs1 hc).2
      cases h : fs1 song.original_copy_path with
      | none => rw [h] at h2; exact Bool.noConfusion h2
      | some b => exact ⟨b, rfl⟩
    rw [(crop_spec song fs fs1 s e 0 hc).2 rfl b hb]
    show (((fs1.write song.path _).write song.path _) song.path).map File.tag = _
    rw [FS.write_self]
    rfl
  · intro g
    exact (user_edit_tag_result song (fs.write song.path g) g (FS.write_self fs _ g)).2
  · intro md c hc
    rw [write_into_tag_new_comments md] at hc
    cases hcr : md.is_cropped <;> cases hed : md.is_metadata_edited <;>
      rw [hcr, hed] at hc <;> simp at hc
    · rcases hc with h | h <;> subst h <;> simp
    · rcases hc with h | h | h <;> subst h <;> simp
    · rcases hc with h | h | h <;> subst h <;> simp
    · rcases hc with h | h | h | h <;> subst h <;> simp
  · intro md p hp
    rw [write_into_tag_new_pictures md] at hp
    cases h : md.album_art with
    | none => rw [h] at hp; simp at hp
    | some a =>
      rw [h] at hp
      simp at hp
      rw [hp]

/-- Claim C9 witness: editing a concrete song whose file carries a foreign
comment leaves the file with exactly the freshly-serialized tag. -/
theorem C9_write_witness :
    ((Song.user_edit_metadata
        { path := "e.mp3",
          metadata :=
            { title := "T", artist := "A", album := "B", youtube_id := "vid",
              album_art := none, is_cropped := false, is_metadata_edited := false,
              download_unix_time := 3 } }
        (fun q => if q = ("e.mp3" : String)
          then some { content := [9],
                      tag := { comments := [{ lang := "eng", description := "Foreign",
                                              text := "kept?" }] } }
          else none)).1 ("e.mp3")).map File.tag =
      some (SongMetadata.write_into_tag
        { title := "T", artist := "A", album := "B", youtube_id := "vid",
          album_art := none, is_cropped := false, is_metadata_edited := true,
          download_unix_time := 3 } Tag.new) := by
  have h := C9_write_discards_foreign_tags
    { path := "e.mp3",
      metadata :=
        { title := "T", artist := "A", album := "B", youtube_id := "vid",
          album_art := none, is_cropped := false, is_metadata_edited := false,
          download_unix_time := 3 } }
    (fun q => if q = ("e.mp3" : String)
      then some { content := [9],
                  tag := { comments := [{ lang := "eng", description := "Foreign",
                                          text := "kept?" }] } }
      else none)
    { content := [9],
      tag := { comments := [{ lang := "eng", description := "Foreign", text := "kept?" }] } }
    0 1 (by rfl)
  exact h.2.1

/-! ### Lemmas: load_songs -/

theorem loadSongsLoop_append_ok (lib : Library) (l : List DirEntry)
    (rest : List (Except RustError DirEntry)) :
    loadSongsLoop lib (l.map Except.ok ++ rest) =
      loadSongsLoop
        { lib with loaded_songs := lib.loaded_songs ++ l.filterMap songOfEntry } rest := by
  induction l generalizing lib with
  | nil => simp
  | cons e tail ih =>
    show loadSongsLoop lib (Except.ok e :: (tail.map Except.ok ++ rest)) = _
    rw [loadSongsLoop]
    by_cases hext : (pathExtension e.path).map asciiLowercase = some ("mp3")
    · rw [if_pos hext]
      cases htag : e.tagRead with
      | none =>
        simp only [htag]
        rw [ih lib]
        simp [songOfEntry, hext, htag]
      | some tag =>
        simp only [htag]
        cases hyt : SongMetadata.get_youtube_id tag with
        | none =>
          simp only [hyt]
          rw [ih lib]
          simp [songOfEntry, hext, htag, hyt]
        | some vid =>
          simp only [hyt]
          rw [ih]
          simp [songOfEntry, hext, htag, hyt, songMetadataOfTag, List.append_assoc]
    · rw [if_neg hext, ih lib]
      simp [songOfEntry, hext]

theorem load_songs_all_ok (lib : Library) (l : List DirEntry) :
    Library.load_songs lib (Except.ok (l.map Except.ok)) =
      ({ lib with loaded_songs := l.filterMap songOfEntry }, Except.ok ()) := by
  rw [Library.load_songs]
  have h := loadSongsLoop_append_ok { lib with loaded_songs := [] } l []
  rw [List.append_nil] at h
  rw [h]
  simp [loadSongsLoop]

theorem load_songs_mid_error (lib : Library) (l1 : List DirEntry) (err : RustError)
    (l2 : List (Except RustError DirEntry)) :
    Library.load_songs lib (Except.ok (l1.map Except.ok ++ Except.error err :: l2)) =
      ({ lib with loaded_songs := l1.filterMap songOfEntry }, Except.error err) := by
  rw [Library.load_songs]
  have h := loadSongsLoop_append_ok { lib with loaded_songs := [] } l1
    (Except.error err :: l2)
  rw [h]
  simp [loadSongsLoop]

/-! ### Claim C4 -/

/-- Claim C4, amended: load_songs first clears the snapshot and then appends
songs as it scans. When the whole enumeration succeeds the caller sees
exactly the complete new list (the call holds exclusive access, so no
intermediate state is observable on the success path); but the rebuild is not
atomic on failure — if the directory read itself fails the snapshot is left
empty, and if an entry fails partway the snapshot is left holding just the
prefix scanned so far, not the previous snapshot. -/
theorem C4_scan_snapshot (lib : Library) :
    (∀ l : List DirEntry,
      Library.load_songs lib (Except.ok (l.map Except.ok)) =
        ({ lib with loaded_songs := l.filterMap songOfEntry }, Except.ok ())) ∧
    (∀ err, Library.load_songs lib (Except.error err) =
      ({ lib with loaded_songs := [] }, Except.error err)) ∧
    (∀ (l1 : List DirEntry) (err : RustError) (l2 : List (Except RustError DirEntry)),
      Library.load_songs lib (Except.ok (l1.map Except.ok ++ Except.error err :: l2)) =
        ({ lib with loaded_songs := l1.filterMap songOfEntry }, Except.error err)) :=
  ⟨load_songs_all_ok lib, fun _ => rfl, load_songs_mid_error lib⟩

/-- Claim C4 counterexample: the claim as stated fails — a scan that errors
on its second entry leaves the library holding a partial new list (the first
scanned song), not the previous snapshot. -/
theorem C4_scan_snapshot_counterexample :
    (Library.load_songs { path := "root", loaded_songs := [fxOldSong] }
      (Except.ok [Except.ok fxEntryA, Except.error RustError.io])).2 =
      Except.error RustError.io ∧
    (Library.load_songs { path := "root", loaded_songs := [fxOldSong] }
      (Except.ok [Except.ok fxEntryA, Except.error RustError.io])).1.loaded_songs =
      [fxSongA] ∧
    (Library.load_songs { path := "root", loaded_songs := [fxOldSong] }
      (Except.ok [Except.ok fxEntryA, Except.error RustError.io])).1.loaded_songs ≠
      [fxOldSong] := by
  refine ⟨by rfl, by decide, by decide⟩

/-- Claim C4 witness: a fully successful scan of one concrete entry replaces
the snapshot with exactly the complete new list. -/
theorem C4_scan_snapshot_witness :
    Library.load_songs { path := "root", loaded_songs := [fxOldSong] }
      (Except.ok [Except.ok fxEntryA]) =
      ({ path := "root", loaded_songs := [fxSongA] }, Except.ok ()) := by
  have h := (C4_scan_snapshot { path := "root", loaded_songs := [fxOldSong] }).1 [fxEntryA]
  exact h

/-! ### Claim C5 -/

/-- Claim C5: a successful scan loads exactly those immediate entries that
have an extension lowercasing to "mp3", a readable tag, and a YouTube ID
comment (in directory order, each song keeping its entry's path); entries
failing any check are silently skipped (the scan still succeeds); and an
error enumerating the directory itself is surfaced to the caller. -/
theorem C5_scan_exclusivity (lib : Library) :
    (∀ l : List DirEntry,
      (Library.load_songs lib (Except.ok (l.map Except.ok))).1.loaded_songs =
        l.filterMap songOfEntry ∧
      (Library.load_songs lib (Except.ok (l.map Except.ok))).2 = Except.ok ()) ∧
    (∀ e : DirEntry,
      ((songOfEntry e).isSome = true ↔
        ((pathExtension e.path).map asciiLowercase = some ("mp3") ∧
          ∃ t, e.tagRead = some t ∧ (SongMetadata.get_youtube_id t).isSome = true)) ∧
      (∀ s, songOfEntry e = some s → s.path = e.path)) ∧
    (∀ err, (Library.load_songs lib (Except.error err)).2 = Except.error err) := by
  refine ⟨fun l => ?_, fun e => ⟨?_, ?_⟩, fun err => rfl⟩
  · rw [load_songs_all_ok lib l]
    exact ⟨rfl, rfl⟩
  · rw [songOfEntry]
    by_cases hext : (pathExtension e.path).map asciiLowercase = some ("mp3")
    · rw [if_pos hext]
      cases htag : e.tagRead with
      | none => simp [hext, htag]
      | some t0 =>
        cases hyt : SongMetadata.get_youtube_id t0 with
        | none => simp [hext, htag, hyt]
        | some vid => simp [hext, htag, hyt]
    · rw [if_neg hext]
      simp [hext]
  · intro s hs
    rw [songOfEntry] at hs
    by_cases hext : (pathExtension e.path).map asciiLowercase = some ("mp3")
    · rw [if_pos hext] at hs
      cases htag : e.tagRead with
      | none => rw [htag] at hs; cases hs
      | some t0 =>
        simp only [htag] at hs
        cases hyt : SongMetadata.get_youtube_id t0 with
        | none => simp only [hyt] at hs; cases hs
        | some vid =>
          simp only [hyt] at hs
          cases hs
          rfl
    · rw [if_neg hext] at hs
      cases hs

/-- Claim C5 witness: scanning a directory holding one tagged MP3 and one
MP3 without the required ID comment exposes exactly the first. -/
theorem C5_scan_exclusivity_witness :
    (Library.load_songs { path := "root", loaded_songs := [] }
      (Except.ok [Except.ok fxEntryA, Except.ok fxEntryNoId])).1.loaded_songs =
      [fxSongA] := by
  have h := (C5_scan_exclusivity { path := "root", loaded_songs := [] }).1
    [fxEntryA, fxEntryNoId]
  exact h.1.trans (by decide)

/-! ### Claim C10 -/

/-- Claim C10: a file whose download-time comment is present but does not
parse as an unsigned integer is still loaded by the scan (no error), with
download_unix_time defaulting to 0. -/
theorem C10_malformed_time_tolerated (lib : Library) (e : DirEntry) (t : Tag) (c : Comment)
    (htag : e.tagRead = some t)
    (hext : (pathExtension e.path).map asciiLowercase = some ("mp3"))
    (hyt : (SongMetadata.get_youtube_id t).isSome = true)
    (htime : SongMetadata.get_download_unix_time t = some c)
    (hbad : parseU64 c.text = none) :
    (Library.load_songs lib (Except.ok [Except.ok e])).2 = Except.ok () ∧
    ∃ s, (Library.load_songs lib (Except.ok [Except.ok e])).1.loaded_songs = [s] ∧
      s.metadata.download_unix_time = 0 := by
  have h := load_songs_all_ok lib [e]
  obtain ⟨vid, hvid⟩ : ∃ vid, SongMetadata.get_youtube_id t = some vid := by
    cases hv : SongMetadata.get_youtube_id t with
    | none => rw [hv] at hyt; exact Bool.noConfusion hyt
    | some vid => exact ⟨vid, rfl⟩
  have hsongOf : songOfEntry e =
      some { path := e.path, metadata := songMetadataOfTag t vid } := by
    rw [songOfEntry, if_pos hext]
    simp only [htag, hvid]
  refine ⟨?_, ⟨{ path := e.path, metadata := songMetadataOfTag t vid }, ?_, ?_⟩⟩
  · show (Library.load_songs lib (Except.ok ([e].map Except.ok))).2 = Except.ok ()
    rw [h]
  · show (Library.load_songs lib (Except.ok ([e].map Except.ok))).1.loaded_songs = _
    rw [h]
    show [e].filterMap songOfEntry = _
    simp [hsongOf]
  · show (songMetadataOfTag t vid).download_unix_time = 0
    show (((SongMetadata.get_download_unix_time t).map
      (fun c => parseU64 c.text)).join).getD 0 = 0
    rw [htime]
    simp [hbad]

/-- Claim C10 witness: the malformed-time entry loads with time 0. -/
theorem C10_malformed_time_witness :
    (Library.load_songs { path := "lib", loaded_songs := [] }
      (Except.ok [Except.ok fxEntryBadTime])).2 = Except.ok () ∧
    ∃ s, (Library.load_songs { path := "lib", loaded_songs := [] }
        (Except.ok [Except.ok fxEntryBadTime])).1.loaded_songs = [s] ∧
      s.metadata.download_unix_time = 0 :=
  C10_malformed_time_tolerated { path := "lib", loaded_songs := [] }
    fxEntryBadTime fxTagBadTime fxBadTimeComment (by rfl) (by decide) (by decide)
    (by decide) (by decide)

/-! ### Lemmas: the download pipeline -/

theorem string_append_left_cancel {a b c : String} (h : a ++ b = a ++ c) : b = c := by
  have h2 := congrArg String.data h
  rw [String.data_append, String.data_append] at h2
  have h3 := List.append_cancel_left h2
  cases b
  cases c
  exact congrArg String.mk h3

theorem downloadArtifactPath_inj (libraryPath id : String) {e1 e2 : String}
    (h : downloadArtifactPath libraryPath id e1 = downloadArtifactPath libraryPath id e2) :
    e1 = e2 := by
  rw [downloadArtifactPath, downloadArtifactPath] at h
  exact string_append_left_cancel h

theorem findSome?_pair (l : List String) (p : String → String) (g : String → Option File) :
    (l.findSome? (fun ext => (g ext).map (fun f => (p ext, f)))) =
      (l.find? (fun ext => (g ext).isSome)).bind
        (fun ext => (g ext).map (fun f => (p ext, f))) := by
  induction l with
  | nil => rfl
  | cons a tl ih =>
    cases h : g a with
    | some f => simp [List.findSome?_cons, List.find?, h]
    | none => simp [List.findSome?_cons, List.find?, h, ih]

theorem FS.remove_self (fs : FS) (p : String) : fs.remove p p = none := by
  simp [FS.remove]

theorem FS.remove_ne (fs : FS) (p q : String) (h : q ≠ p) : fs.remove p q = fs q := by
  simp [FS.remove, h]

theorem download_findSome?_eq (libraryPath id : String) (fs : FS) :
    (thumbnail_possible_extensions.findSome? (fun ext =>
      let path := downloadArtifactPath libraryPath id ext
      (fs path).map (fun f => (path, f)))) =
      (thumbnail_possible_extensions.find?
        (fun ext => (fs (downloadArtifactPath libraryPath id ext)).isSome)).bind
        (fun ext => (fs (downloadArtifactPath libraryPath id ext)).map
          (fun f => (downloadArtifactPath libraryPath id ext, f))) :=
  findSome?_pair thumbnail_possible_extensions _ _

/-! ### Claim C7 -/

/-- Claim C7: with the fetch process exited zero, a missing MP3 artifact
fails the download with DownloadMissing (file system untouched); the
thumbnail is searched in the fixed order jpg, jpeg, webp, png — if none is
present the download fails with ThumbnailMissing and the file system,
including the MP3's tags, is untouched; and when the first present extension
is ext0 and its image decodes, the download succeeds, deletes exactly that
thumbnail file, and leaves every other thumbnail candidate unchanged. -/
theorem C7_missing_artifacts (d : YouTubeDownload) (libraryPath : String)
    (meta0 : Option SongMetadata) (now : Nat)
    (dec : List Nat → Option (List Nat)) (fs : FS) :
    (fs (downloadArtifactPath libraryPath d.id ("mp3")) = none →
      YouTubeDownload.download d libraryPath meta0 now 0 dec fs =
        (fs, Except.error DownloadError.downloadMissing)) ∧
    ((fs (downloadArtifactPath libraryPath d.id ("mp3"))).isSome = true →
      (((["jpg", "jpeg", "webp", "png"] : List String).find?
          (fun ext => (fs (downloadArtifactPath libraryPath d.id ext)).isSome) = none →
        YouTubeDownload.download d libraryPath meta0 now 0 dec fs =
          (fs, Except.error DownloadError.thumbnailMissing)) ∧
      (∀ ext0, (["jpg", "jpeg", "webp", "png"] : List String).find?
          (fun ext => (fs (downloadArtifactPath libraryPath d.id ext)).isSome) = some ext0 →
        ∀ tf, fs (downloadArtifactPath libraryPath d.id ext0) = some tf →
        ∀ jpeg, dec tf.content = some jpeg →
          (YouTubeDownload.download d libraryPath meta0 now 0 dec fs).2 = Except.ok () ∧
          (YouTubeDownload.download d libraryPath meta0 now 0 dec fs).1
            (downloadArtifactPath libraryPath d.id ext0) = none ∧
          (∀ ext ∈ (["jpg", "jpeg", "webp", "png"] : List String), ext ≠ ext0 →
            (YouTubeDownload.download d libraryPath meta0 now 0 dec fs).1
              (downloadArtifactPath libraryPath d.id ext) =
              fs (downloadArtifactPath libraryPath d.id ext))))) := by
  constructor
  · intro hm
    simp [YouTubeDownload.download, hm]
  · intro hmp3
    constructor
    · intro hfind
      have hfind' : thumbnail_possible_extensions.find?
          (fun ext => (fs (downloadArtifactPath libraryPath d.id ext)).isSome) = none := hfind
      simp [YouTubeDownload.download, hmp3, download_findSome?_eq, hfind']
    · intro ext0 hfind tf htf jpeg hdec
      have hfind' : thumbnail_possible_extensions.find?
          (fun ext => (fs (downloadArtifactPath libraryPath d.id ext)).isSome) =
          some ext0 := hfind
      obtain ⟨mf, hmf⟩ : ∃ mf, fs (downloadArtifactPath libraryPath d.id ("mp3")) = some mf := by
        cases h : fs (downloadArtifactPath libraryPath d.id ("mp3")) with
        | none => rw [h] at hmp3; exact Bool.noConfusion hmp3
        | some mf => exact ⟨mf, rfl⟩
      have hext0mem : ext0 ∈ (["jpg", "jpeg", "webp", "png"] : List String) :=
        List.mem_of_find?_eq_some hfind
      have hext0ne : ext0 ≠ ("mp3" : String) := by
        fin_cases hext0mem <;> decide
      have hpathne : downloadArtifactPath libraryPath d.id ext0 ≠
          downloadArtifactPath libraryPath d.id ("mp3") :=
        fun h => hext0ne (downloadArtifactPath_inj libraryPath d.id h)
      have hrm : (FS.remove fs (downloadArtifactPath libraryPath d.id ext0))
          (downloadArtifactPath libraryPath d.id ("mp3")) = some mf := by
        rw [FS.remove_ne _ _ _ (fun h => hpathne h.symm)]
        exact hmf
      have hreduce : YouTubeDownload.download d libraryPath meta0 now 0 dec fs =
          ((FS.remove fs (downloadArtifactPath libraryPath d.id ext0)).write
            (downloadArtifactPath libraryPath d.id ("mp3"))
            { mf with tag :=
                (SongMetadata.write_into_tag
                  { (meta0.getD
                      { title := d.id, artist := "Unknown Artist",
                        album := "Unknown Album", youtube_id := d.id,
                        album_art := none, is_cropped := false,
                        is_metadata_edited := false,
                        download_unix_time := now }) with
                    album_art := some
                      { mime_type := "image/jpeg",
                        picture_type := PictureType.coverFront,
                        description := "Cover", data := jpeg } } Tag.new) },
           Except.ok ()) := by
        simp [YouTubeDownload.download, download_findSome?_eq, hfind', htf, hdec,
          hmp3, SongMetadata.write_into_file, hrm]
      refine ⟨by rw [hreduce], ?_, ?_⟩
      · rw [hreduce]
        show ((_ : FS).write _ _) _ = none
        rw [FS.write_ne _ _ _ _ hpathne, FS.remove_self]
      · intro ext hmem hne
        rw [hreduce]
        have hextne : ext ≠ ("mp3" : String) := by
          fin_cases hmem <;> decide
        have hpne1 : downloadArtifactPath libraryPath d.id ext ≠
            downloadArtifactPath libraryPath d.id ("mp3") :=
          fun h => hextne (downloadArtifactPath_inj libraryPath d.id h)
        have hpne2 : downloadArtifactPath libraryPath d.id ext ≠
            downloadArtifactPath libraryPath d.id ext0 :=
          fun h => hne (downloadArtifactPath_inj libraryPath d.id h)
        show ((_ : FS).write _ _) _ = _
        rw [FS.write_ne _ _ _ _ hpne1, FS.remove_ne _ _ _ hpne2]

/-- Claim C7 witness: a zero-exit fetch that produced the MP3 but no
thumbnail file yields ThumbnailMissing and leaves the file system (hence the
MP3's tags) untouched. -/
theorem C7_thumbnail_missing_witness :
    YouTubeDownload.download { id := "vid" } ("lib") none 42 0 (fun b => some b)
      (fun q => if q = ("lib/vid.mp3" : String)
        then some { content := [1], tag := Tag.new } else none) =
      ((fun q => if q = ("lib/vid.mp3" : String)
        then some { content := [1], tag := Tag.new } else none : FS),
       Except.error DownloadError.thumbnailMissing) := by
  have h := C7_missing_artifacts { id := "vid" } ("lib") none 42 (fun b => some b)
    (fun q => if q = ("lib/vid.mp3" : String)
      then some { content := [1], tag := Tag.new } else none)
  exact (h.2 (by rfl)).1 (by decide)

/-! ### Lemmas: the URL regexes -/

theorem patConsume_sound (pat : List PatChar) :
    ∀ s rest : List Char, patConsume pat s = some rest →
      ∃ pre, s = pre ++ rest ∧
        List.Forall₂ (fun p x => patCharAccepts p x = true) pat pre := by
  induction pat with
  | nil =>
    intro s rest h
    cases h
    exact ⟨[], rfl, List.Forall₂.nil⟩
  | cons p ps ih =>
    intro s rest h
    cases s with
    | nil => cases h
    | cons c cs =>
      rw [patConsume] at h
      by_cases hacc : patCharAccepts p c = true
      · rw [if_pos hacc] at h
        obtain ⟨pre', hpre', hfa⟩ := ih cs rest h
        exact ⟨c :: pre', by rw [hpre']; rfl, List.Forall₂.cons hacc hfa⟩
      · rw [if_neg hacc] at h
        cases h

theorem patConsume_complete (pat : List PatChar) (mid rest : List Char)
    (h : List.Forall₂ (fun p x => patCharAccepts p x = true) pat mid) :
    patConsume pat (mid ++ rest) = some rest := by
  induction h with
  | nil => rfl
  | cons hacc _ ih =>
    rw [List.cons_append, patConsume, if_pos hacc, ih]

theorem dropWhile_head_false (p : Char → Bool) (l : List Char) :
    ∀ c t, l.dropWhile p = c :: t → p c = false := by
  induction l with
  | nil => intro c t h; cases h
  | cons a tl ih =>
    intro c t h
    rw [List.dropWhile] at h
    by_cases ha : p a = true
    · rw [ha] at h
      exact ih c t h
    · have ha' : p a = false := by
        cases hpa : p a with
        | true => exact absurd hpa ha
        | false => rfl
      rw [ha'] at h
      cases h
      exact ha'

theorem patCaptureHere_sound (pat : List PatChar) (s cap : List Char)
    (h : patCaptureHere pat s = some cap) :
    ∃ mid post, s = mid ++ cap ++ post ∧
      List.Forall₂ (fun p x => patCharAccepts p x = true) pat mid ∧
      cap ≠ [] ∧ (∀ c ∈ cap, c ≠ '&') ∧ (post = [] ∨ ∃ t, post = '&' :: t) := by
  rw [patCaptureHere] at h
  cases hcons : patConsume pat s with
  | none => rw [hcons] at h; cases h
  | some rest =>
    simp only [hcons] at h
    by_cases hne : rest.takeWhile (fun c => c ≠ '&') = []
    · rw [if_pos hne] at h
      cases h
    · rw [if_neg hne] at h
      cases h
      obtain ⟨mid, hmid, hfa⟩ := patConsume_sound pat s rest hcons
      refine ⟨mid, rest.dropWhile (fun c => c ≠ '&'), ?_, hfa, hne, ?_, ?_⟩
      · rw [hmid, List.append_assoc,
          List.takeWhile_append_dropWhile (fun c => decide (c ≠ '&')) rest]
      · intro c hc
        have := List.mem_takeWhile_imp hc
        exact of_decide_eq_true this
      · cases hd : rest.dropWhile (fun c => c ≠ '&') with
        | nil => exact Or.inl rfl
        | cons c t =>
          refine Or.inr ⟨t, ?_⟩
          have := dropWhile_head_false (fun c => decide (c ≠ '&')) rest c t hd
          have hc : c = '&' := by
            by_contra hcc
            rw [decide_eq_false_iff_not] at this
            exact this hcc
          rw [hc]

theorem patCaptureHere_complete (pat : List PatChar) (mid : List Char) (c : Char)
    (post : List Char)
    (hmid : List.Forall₂ (fun p x => patCharAccepts p x = true) pat mid)
    (hc : c ≠ '&') :
    (patCaptureHere pat (mid ++ c :: post)).isSome = true := by
  rw [patCaptureHere, patConsume_complete pat mid (c :: post) hmid]
  simp [List.takeWhile_cons, hc]

theorem patSearch_sound (pat : List PatChar) :
    ∀ s cap : List Char, patSearch pat s = some cap → patCapturesIn pat s cap := by
  intro s
  induction s with
  | nil =>
    intro cap h
    rw [patSearch] at h
    obtain ⟨mid, post, hs, hfa, hne, hamp, hpost⟩ := patCaptureHere_sound pat [] cap h
    exact ⟨[], mid, post, by simpa using hs, hfa, hne, hamp, hpost⟩
  | cons c cs ih =>
    intro cap h
    rw [patSearch] at h
    cases hcap : patCaptureHere pat (c :: cs) with
    | some cap' =>
      rw [hcap] at h
      cases h
      obtain ⟨mid, post, hs, hfa, hne, hamp, hpost⟩ :=
        patCaptureHere_sound pat (c :: cs) cap hcap
      exact ⟨[], mid, post, by simpa using hs, hfa, hne, hamp, hpost⟩
    | none =>
      rw [hcap] at h
      obtain ⟨pre, mid, post, hs, hfa, hne, hamp, hpost⟩ := ih cap h
      exact ⟨c :: pre, mid, post, by simp [hs], hfa, hne, hamp, hpost⟩

theorem patSearch_complete_aux (pat : List PatChar) (pre : List Char) :
    ∀ (mid : List Char) (c : Char) (post : List Char),
      List.Forall₂ (fun p x => patCharAccepts p x = true) pat mid → c ≠ '&' →
      (patSearch pat (pre ++ mid ++ c :: post)).isSome = true := by
  induction pre with
  | nil =>
    intro mid c post hmid hc
    have hcap := patCaptureHere_complete pat mid c post hmid hc
    cases hm : (mid ++ c :: post : List Char) with
    | nil =>
      exfalso
      cases mid <;> cases hm
    | cons x xs =>
      have : ([] ++ mid ++ c :: post : List Char) = x :: xs := by rw [List.nil_append, hm]
      rw [this]
      rw [hm] at hcap
      rw [patSearch]
      cases hcc : patCaptureHere pat (x :: xs) with
      | some cap => rfl
      | none => rw [hcc] at hcap; cases hcap
  | cons a pre' ih =>
    intro mid c post hmid hc
    show (patSearch pat (a :: (pre' ++ mid ++ c :: post))).isSome = true
    rw [patSearch]
    cases hcc : patCaptureHere pat (a :: (pre' ++ mid ++ c :: post)) with
    | some cap => rfl
    | none => exact ih mid c post hmid hc

theorem patSearch_complete (pat : List PatChar) (s : List Char)
    (h : patHasMatch pat s) : (patSearch pat s).isSome = true := by
  obtain ⟨pre, mid, c, post, hs, hfa, hc⟩ := h
  rw [hs]
  exact patSearch_complete_aux pat pre mid c post hfa hc

theorem patCapturesIn_hasMatch (pat : List PatChar) (s cap : List Char)
    (h : patCapturesIn pat s cap) : patHasMatch pat s := by
  obtain ⟨pre, mid, post, hs, hfa, hne, hamp, _⟩ := h
  cases hcap : cap with
  | nil => exact absurd hcap hne
  | cons c cap' =>
    refine ⟨pre, mid, c, cap' ++ post, ?_, hfa, hamp c (by rw [hcap]; exact List.mem_cons_self c cap')⟩
    rw [hs, hcap]
    simp

theorem patSearch_none_of_no_match (pat : List PatChar) (s : List Char)
    (h : ¬ patHasMatch pat s) : patSearch pat s = none := by
  cases hps : patSearch pat s with
  | none => rfl
  | some cap =>
    exact absurd (patCapturesIn_hasMatch pat s cap (patSearch_sound pat s cap hps)) h

/-! ### Claim C8 -/

/-- Claim C8: extract_video_id is total and permissive — when the long-URL
regex matches, the result is its captured identifier (a nonempty
ampersand-free run immediately after an occurrence of the
"youtube⟨any⟩com/watch?v=" shape, maximal in that what follows is the end of
the string or an ampersand); otherwise, when the short-URL ("youtu⟨any⟩be/")
regex matches, the result is its capture; and when neither shape occurs in
the input, the whole input string is returned unchanged. -/
theorem C8_extract_video_id (s : String) :
    (¬ patHasMatch long_url_pattern s.data → ¬ patHasMatch short_url_pattern s.data →
      extract_video_id s = s) ∧
    (∀ cap, patSearch long_url_pattern s.data = some cap →
      extract_video_id s = ⟨cap⟩ ∧ patCapturesIn long_url_pattern s.data cap) ∧
    (∀ cap, patSearch long_url_pattern s.data = none →
      patSearch short_url_pattern s.data = some cap →
      extract_video_id s = ⟨cap⟩ ∧ patCapturesIn short_url_pattern s.data cap) ∧
    (patHasMatch long_url_pattern s.data →
      (patSearch long_url_pattern s.data).isSome = true) ∧
    (patHasMatch short_url_pattern s.data →
      (patSearch short_url_pattern s.data).isSome = true) := by
  refine ⟨?_, ?_, ?_, patSearch_complete _ _, patSearch_complete _ _⟩
  · intro hlong hshort
    rw [extract_video_id, patSearch_none_of_no_match _ _ hlong,
      patSearch_none_of_no_match _ _ hshort]
  · intro cap hcap
    rw [extract_video_id, hcap]
    exact ⟨rfl, patSearch_sound _ _ _ hcap⟩
  · intro cap hnone hcap
    rw [extract_video_id, hnone, hcap]
    exact ⟨rfl, patSearch_sound _ _ _ hcap⟩

/-- Claim C8 witness: a concrete long URL with a trailing query parameter
yields the captured video id. -/
theorem C8_extract_video_id_witness :
    extract_video_id ("https://youtube.com/watch?v=dQw4w9WgXcQ&t=43s") =
      ("dQw4w9WgXcQ") ∧
    patCapturesIn long_url_pattern
      ("https://youtube.com/watch?v=dQw4w9WgXcQ&t=43s").data
      ("dQw4w9WgXcQ").data := by
  have h := (C8_extract_video_id ("https://youtube.com/watch?v=dQw4w9WgXcQ&t=43s")).2.1
    ("dQw4w9WgXcQ").data (by decide)
  exact h

end CrossPlay
